import Mathlib

/-!
The two C examples of the column-family store, as state-passing programs.

`examples/c_column_family_example.c` and `examples/c_upper_bound_example.c`
are clients of the store's C interface.  Each C function becomes a Lean
function that takes the global variables it reads, and returns its `int`
result, the globals it leaves behind and the list of events (library calls
and `fprintf(stderr, ...)` writes) it performed, in order.

* C `int` is `Int` reduced by `wrapInt` after every arithmetic step.
* A `for` loop over an `int` counter takes fuel; `none` means the fuel ran out.
* What the library answers (error strings, handles, return codes) is a
  parameter `Lib` of every function; nothing is assumed about it unless a
  theorem says so.
* The name array of `rocksdb_batch_add_cf` is flat: a store outside the
  allocated cells is recorded with its index, and bounds are judged afterwards
  on the recorded indices.  Allocation itself is taken to succeed.
* The read `handles[20]` of `main` is a read of a cell only when `handles` is
  not null and has at least 21 cells; otherwise the run stops at that read.
-/

namespace RocksExamples

/-! ## Machine integers and counting loops -/

/-- Largest value of the 32-bit C `int`. -/
def INT_MAX : Int := 2147483647

/-- Smallest value of the 32-bit C `int`. -/
def INT_MIN : Int := -2147483648

/-- Two's-complement reduction of an integer to the 32-bit C `int`; also the
conversion `size_t -> int` of a call argument. -/
def wrapInt (x : Int) : Int := (x + 2147483648) % 4294967296 - 2147483648

/-- The loop `for (i = start; cond(i); i++) body(i)` over an `int` counter,
as a state transformer.  One unit of fuel is used per test of the condition. -/
def forLoop {σ : Type} (cond : Int → Bool) (body : Int → σ → σ) : Nat → Int → σ → Option σ
  | 0, _, _ => none
  | fuel + 1, i, s =>
    if cond i then forLoop cond body fuel (wrapInt (i + 1)) (body i s) else some s

/-- The integers `lo, lo + 1, ..., lo + n - 1`. -/
def intsFrom (lo : Int) : Nat → List Int
  | 0 => []
  | n + 1 => lo :: intsFrom (lo + 1) n

/-! ## `sprintf(slot, "%s%d", ...)` -/

/-- The character of a decimal digit. -/
def digitChar (d : Nat) : Char := Char.ofNat (48 + d)

/-- Decimal digits of `n`, most significant first; the first argument bounds
the number of digits. -/
def decimalAux : Nat → Nat → List Char
  | 0, _ => []
  | fuel + 1, n =>
    if n < 10 then [digitChar n] else decimalAux fuel (n / 10) ++ [digitChar (n % 10)]

/-- Decimal rendering of a natural number. -/
def decimal (n : Nat) : List Char := decimalAux (n + 1) n

/-- The conversion `%d` of `printf`. -/
def fmt_d (i : Int) : String :=
  if i < 0 then String.mk ('-' :: decimal i.natAbs) else String.mk (decimal i.toNat)

/-- The string `sprintf(slot, "%s%d", s, i)` leaves in `slot`. -/
def sprintf_sd (s : String) (i : Int) : String := s ++ fmt_d i

/-- Value of a digit string, the inverse of `decimal`. -/
def undecimal (cs : List Char) : Nat := cs.foldl (fun acc c => 10 * acc + (c.toNat - 48)) 0

/-! ## Events -/

/-- A column family handle, as the library hands it out. -/
abbrev Handle := Nat

/-- A key or a value of the store: a string of bytes. -/
abbrev Bytes := List Nat

/-- The first `len` bytes of a C string literal (ASCII). -/
def bytesOf (s : String) (len : Nat) : Bytes := (s.toList.take len).map Char.toNat

/-- An argument of an `fprintf` call. -/
inductive Arg
  | file
  | line (n : Nat)
  | str (s : String)
  | errstr (e : Option String)
  | int (i : Int)
  | bytes (b : Bytes)
deriving DecidableEq, Repr

/-- A call into the library, with the arguments the program passes.  An
object argument (`opt`, a handle) is `none` when the program passes a null or
a cell it never filled.  The iterator queries carry what the library returned. -/
inductive Call
  | options_create
  | readoptions_create
  | writeoptions_create
  | options_set_create_if_missing (v : Int)
  | readoptions_set_verify_checksums (v : Int)
  | readoptions_set_fill_cache (v : Int)
  | writeoptions_set_sync (v : Int)
  | list_column_families (opt : Option Nat) (path : String)
  | open_column_families (opt : Option Nat) (path : String) (size : Int)
      (names : List String) (opts : List (Option Nat))
  | list_column_families_destroy (names : List String) (size : Int)
  | create_column_families (opt : Option Nat) (names : List (Option String)) (count : Int)
  | put_cf (h : Option Handle) (key : String) (keylen : Nat) (val : String) (vallen : Nat)
  | create_snapshot
  | readoptions_set_snapshot
  | readoptions_set_iterate_upper_bound (bound : String) (len : Nat)
  | create_iterator_cf (h : Option Handle)
  | iter_seek (target : String) (len : Nat)
  | iter_get_error
  | iter_valid (r : Bool)
  | iter_key (k : Bytes)
  | iter_value (v : Bytes)
  | iter_next
  | iter_destroy
deriving DecidableEq, Repr

/-- One observable step of a program: a library call together with the error
string it left in its `err` out-parameter (`none` when it left it alone or has
no such parameter), or a write to standard error. -/
inductive Event
  | call (c : Call) (err : Option String)
  | fprintf (fmt : String) (args : List Arg)
deriving DecidableEq, Repr

/-- A write to standard error carries file and line context when its format
starts with the `file: %s, line: %d` header and its first two arguments are
`__FILE__` and `__LINE__`. -/
def Event.hasFileLine : Event → Bool
  | .fprintf fmt (.file :: .line _ :: _) => "file: %s, line: %d".toList.isPrefixOf fmt.toList
  | _ => false

/-- Whether the event is the column-family creation call. -/
def Event.isCreate : Event → Bool
  | .call (.create_column_families _ _ _) _ => true
  | _ => false

/-- Whether the event is a library call on the data path: a write, the
snapshot and read-option calls that set up the scan, or an iterator call
other than the error query. -/
def Event.isDataCall : Event → Bool
  | .call (.put_cf _ _ _ _ _) _ => true
  | .call .create_snapshot _ => true
  | .call .readoptions_set_snapshot _ => true
  | .call (.readoptions_set_iterate_upper_bound _ _) _ => true
  | .call (.create_iterator_cf _) _ => true
  | .call (.iter_seek _ _) _ => true
  | .call (.iter_valid _) _ => true
  | .call (.iter_key _) _ => true
  | .call (.iter_value _) _ => true
  | .call .iter_next _ => true
  | .call .iter_destroy _ => true
  | _ => false

/-- Whether every library call that left an error string is directly
followed, before any other event, by a write to standard error that carries
file and line context. -/
def errorsReported : List Event → Bool
  | [] => true
  | .call _ (some _) :: rest =>
    (match rest with
     | ev :: _ => ev.hasFileLine
     | [] => false) && errorsReported rest
  | _ :: rest => errorsReported rest

/-! ## The library, as seen by one run -/

/-- Answer of `rocksdb_list_column_families`: the error string (if any) and
the listed names; `size` is the length of `names`. -/
structure ListResult where
  err : Option String
  names : List String

/-- Answer of `rocksdb_open_column_families`: the error string (if any), the
database pointer, and the handles written to the output array from cell 0. -/
structure OpenResult where
  err : Option String
  db : Option Nat
  handles : List Handle

/-- Answer of `rocksdb_create_column_families`: the `int` it returns, the
error string it left (if any), the handle array it stored through its
output pointer (`none`: left null), and the success count. -/
structure CreateResult where
  ret : Int
  err : Option String
  cfs : Option (List (Option Handle))
  success_count : Int

/-- Everything the library decides in one run.  `history h` lists the writes
made to the column family of handle `h` before the program starts. -/
structure Lib where
  options_create : Nat
  readoptions_create : Nat
  writeoptions_create : Nat
  list_column_families : String → ListResult
  open_column_families : String → Int → List String → List (Option Nat) → OpenResult
  create_column_families : List (Option String) → Int → CreateResult
  put_err : Nat → Option String
  iter_err : Option String
  history : Handle → List (Bytes × Bytes)

/-- Result of a C function: its `int`, the globals afterwards, its events. -/
structure Ret (G : Type) where
  ret : Int
  globals : G
  events : List Event

/-- The name array `new_cf_names` of `rocksdb_batch_add_cf`: the content of
each cell (flat, by index) and the indices stored to, in order. -/
structure NameArray where
  cells : Int → Option String
  stores : List Int

/-- A freshly allocated name array: no cell holds a string. -/
def NameArray.fresh : NameArray := ⟨fun _ => none, []⟩

/-- The store `new_cf_names[i] = strdup(slot)`. -/
def NameArray.store (a : NameArray) (i : Int) (s : String) : NameArray :=
  ⟨fun j => if j = i then some s else a.cells j, a.stores ++ [i]⟩

/-- What the library reads when handed the array and a count. -/
def NameArray.view (a : NameArray) (count : Int) : List (Option String) :=
  (List.range count.toNat).map (fun (j : Nat) => a.cells (j : Int))

/-- Result of `rocksdb_batch_add_cf`, with its memory accesses: the number of
cells requested from `malloc`, the indices stored to, and for every
`free(new_cf_names[i])` the index and the cell content it read. -/
structure BatchRet (G : Type) extends Ret G where
  entries : Int
  stores : List Int
  frees : List (Int × Option String)

/-- Index `i` lies inside an array of `entries` cells. -/
def inside (entries i : Int) : Prop := 0 ≤ i ∧ i < entries

instance (entries i : Int) : Decidable (inside entries i) := by
  unfold inside; infer_instance

/-- The outcome of `main`: it returned, it reached `while(1) sleep(10)`, or it
stopped at a read through a null pointer or past the last cell of an array
(a read C leaves undefined; the run does not get past it). -/
inductive Outcome
  | returned (ret : Int)
  | idle
  | fault
deriving DecidableEq, Repr

/-- The name cells `pre0, pre1, ..., pre(n-1)`: `pre` followed by the decimal
rendering of the index, each cell holding its string. -/
def slotNames (pre : String) (n : Nat) : List (Option String) :=
  (List.range n).map (fun (j : Nat) => some (pre ++ String.mk (decimal j)))

/-! ## The store behind a column family handle -/

/-- Modelled from the spec: the bytewise comparison of keys (the library's
default comparator, not among the example sources): the first differing byte
decides, and a proper initial segment comes first. -/
def keyLt : Bytes → Bytes → Bool
  | [], [] => false
  | [], _ :: _ => true
  | _ :: _, [] => false
  | a :: as, b :: bs => if a < b then true else if b < a then false else keyLt as bs

/-- Modelled from the spec: a write into a column family, kept as the list of
its key/value pairs in ascending key order; writing an existing key replaces
its value (the library's `rocksdb_put_cf`, not among the example sources). -/
def cfPut : List (Bytes × Bytes) → Bytes → Bytes → List (Bytes × Bytes)
  | [], k, v => [(k, v)]
  | (k', v') :: rest, k, v =>
    if keyLt k k' then (k, v) :: (k', v') :: rest
    else if keyLt k' k then (k', v') :: cfPut rest k v
    else (k, v) :: rest

/-- Modelled from the spec: the content of a column family after a sequence
of writes, starting empty. -/
def cfBuild (ws : List (Bytes × Bytes)) : List (Bytes × Bytes) :=
  ws.foldl (fun cf w => cfPut cf w.1 w.2) []

/-- The keys of a column family content. -/
def cfKeys (cf : List (Bytes × Bytes)) : List Bytes := cf.map Prod.fst

/-- A column family content lists its entries in strictly ascending key
order (so no key occurs twice). -/
def ascending (cf : List (Bytes × Bytes)) : Prop :=
  cf.Pairwise (fun a b => keyLt a.1 b.1 = true)

/-- Whether a key is strictly below the iteration upper bound, if one is set. -/
def below (upper : Option Bytes) (k : Bytes) : Bool :=
  match upper with
  | none => true
  | some u => keyLt k u

/-- Modelled from the spec: an iterator of the library (not among the example
sources), by its contract: it reads a fixed snapshot in ascending key order,
`pos` is the index of the entry it stands on, and `upper` is the iteration
upper bound of the read options. -/
structure Iter where
  entries : List (Bytes × Bytes)
  upper : Option Bytes
  pos : Nat

/-- Modelled from the spec: `rocksdb_create_iterator_cf`; the new iterator
stands on no entry until it is sought. -/
def Iter.create (snapshot : List (Bytes × Bytes)) (upper : Option Bytes) : Iter :=
  ⟨snapshot, upper, snapshot.length⟩

/-- Modelled from the spec: `rocksdb_iter_seek` positions the iterator on the
first entry whose key is greater than or equal to the target. -/
def Iter.seek (it : Iter) (target : Bytes) : Iter :=
  { it with pos := it.entries.findIdx (fun e => !keyLt e.1 target) }

/-- Modelled from the spec: `rocksdb_iter_valid`: the iterator stands on an
entry and that entry's key is strictly less than the upper bound. -/
def Iter.valid (it : Iter) : Bool :=
  match it.entries[it.pos]? with
  | none => false
  | some e => below it.upper e.1

/-- Modelled from the spec: `rocksdb_iter_key`. -/
def Iter.key (it : Iter) : Bytes :=
  match it.entries[it.pos]? with
  | none => []
  | some e => e.1

/-- Modelled from the spec: `rocksdb_iter_value`. -/
def Iter.value (it : Iter) : Bytes :=
  match it.entries[it.pos]? with
  | none => []
  | some e => e.2

/-- Modelled from the spec: `rocksdb_iter_next` moves to the following entry. -/
def Iter.next (it : Iter) : Iter := { it with pos := it.pos + 1 }

/-- The keys a run reads through `rocksdb_iter_key`, in the order read. -/
def visitedKeys (evs : List Event) : List Bytes :=
  evs.filterMap (fun e => match e with
    | .call (.iter_key k) _ => some k
    | _ => none)

/-! ## `examples/c_column_family_example.c` -/

namespace ColumnFamilyExample

/-- The constant `DBPath`. -/
def DBPath : String := "/tmp/rocksdb_simple_example"

/-- The constant `CF_PREFIX`. -/
def CF_PREFIX : String := "cd_"

/-- The file-scope variable `all_slot_count`. -/
def all_slot_count : Int := 16384

/-- The global variables `opt`, `ropt`, `wopt`, `db` (null until assigned). -/
structure Globals where
  opt : Option Nat
  ropt : Option Nat
  wopt : Option Nat
  db : Option Nat

/-- The globals at program start. -/
def Globals.start : Globals := ⟨none, none, none, none⟩

/-- The function `rocksdb_option_init` (lines 27-39). -/
def rocksdb_option_init (lib : Lib) (g : Globals) : Ret Globals :=
  { ret := 0
    globals := { g with opt := some lib.options_create, ropt := some lib.readoptions_create,
                        wopt := some lib.writeoptions_create }
    events := [.call .options_create none, .call .readoptions_create none,
               .call .writeoptions_create none,
               .call (.options_set_create_if_missing 1) none,
               .call (.readoptions_set_verify_checksums 1) none,
               .call (.readoptions_set_fill_cache 1) none,
               .call (.writeoptions_set_sync 1) none] }

/-- The function `rocksdb_open_cf` (lines 41-70).  `opts` is the array the loop
`for (i=0; i<size; i++) opts[i] = opt;` fills; the local `handles` array is
freed before returning. -/
def rocksdb_open_cf (lib : Lib) (g : Globals) (db_path : String) (cf_names : List String)
    (size : Int) : Ret Globals :=
  let opts := List.replicate size.toNat g.opt
  let r := lib.open_column_families db_path size cf_names opts
  { ret := if r.err = none then 0 else -1
    globals := { g with db := r.db }
    events := [.call (.open_column_families g.opt db_path size cf_names opts) r.err,
               (match r.err with
                | some e => .fprintf "file: %s, line: %d db path: %s, err: %s\n"
                              [.file, .line 57, .str db_path, .str e]
                | none => .fprintf "file: %s, line: %d open column families success"
                              [.file, .line 61]),
               .call (.list_column_families_destroy cf_names size) none] }

/-- The assignment `op_cf_count = slot_end - slot_from + 1` (line 83). -/
def op_cf_count (slot_from slot_end : Int) : Int :=
  wrapInt (wrapInt (slot_end - slot_from) + 1)

/-- The function `rocksdb_batch_add_cf` (lines 72-105). -/
def rocksdb_batch_add_cf (fuel : Nat) (lib : Lib) (g : Globals) (slot_from slot_end : Int) :
    Option (BatchRet Globals) :=
  let count := op_cf_count slot_from slot_end
  match forLoop (fun i => decide (i ≤ slot_end))
      (fun i a => a.store i (sprintf_sd CF_PREFIX i)) fuel slot_from NameArray.fresh with
  | none => none
  | some arr =>
    let names := arr.view count
    let r := lib.create_column_families names count
    let report : Event :=
      if r.ret ≠ 0 then
        .fprintf "file: %s, line: %d create column families failed, fatal error: %s\n"
          [.file, .line 94, .errstr r.err]
      else
        .fprintf "file: %s, line: %d batch create slots success count: %d\n"
          [.file, .line 98, .int r.success_count]
    match forLoop (fun i => decide (i ≤ slot_end))
        (fun i (fr : List (Int × Option String)) => fr ++ [(i, arr.cells i)]) fuel 0 [] with
    | none => none
    | some frees =>
      some { ret := r.ret
             globals := g
             events := [.call (.create_column_families g.opt names count) r.err, report]
             entries := count
             stores := arr.stores
             frees := frees }

/-- The function `rocks_db_open` (lines 106-133). -/
def rocks_db_open (fuel : Nat) (lib : Lib) (g : Globals) (path : String) :
    Option (Ret Globals) :=
  let l := lib.list_column_families path
  let listing : Event := .call (.list_column_families g.opt path) l.err
  match l.err with
  | some e =>
    let complaint : Event :=
      .fprintf "file: %s, line: %d db path: %s, get column family empty, error: %s\n"
        [.file, .line 116, .str path, .str e]
    let o := rocksdb_open_cf lib g path ["default"] 1
    if o.ret ≠ 0 then
      some { ret := o.ret
             globals := o.globals
             events := [listing, complaint] ++ o.events ++
               [.fprintf "file: %s, line: %d column family open failed\n" [.file, .line 125]] }
    else
      match rocksdb_batch_add_cf fuel lib o.globals 0 (wrapInt (all_slot_count - 1)) with
      | none => none
      | some b =>
        some { ret := b.ret
               globals := b.globals
               events := [listing, complaint] ++ o.events ++ b.events }
  | none =>
    let size : Nat := l.names.length
    let o := rocksdb_open_cf lib g path l.names (wrapInt size)
    some { ret := o.ret
           globals := o.globals
           events := [listing,
                      .fprintf "file: %s, line: %d column family size: %d\n"
                        [.file, .line 131, .int (wrapInt size)]] ++ o.events }

/-- Result of `main`: the outcome and the events of the whole run. -/
structure MainRet where
  outcome : Outcome
  events : List Event

/-- The function `main` (lines 135-148). -/
def main (fuel : Nat) (lib : Lib) : Option MainRet :=
  let i := rocksdb_option_init lib Globals.start
  match rocks_db_open fuel lib i.globals DBPath with
  | none => none
  | some r =>
    if r.ret ≠ 0 then
      some { outcome := .returned r.ret
             events := i.events ++ r.events ++ [.fprintf "db open failed\n" []] }
    else
      some { outcome := .idle, events := i.events ++ r.events }

end ColumnFamilyExample

/-! ## `examples/c_upper_bound_example.c` -/

namespace UpperBoundExample

/-- The constant `DBPath`. -/
def DBPath : String := "/tmp/rocksdb_simple_example"

/-- The constant `CF_PREFIX`. -/
def CF_PREFIX : String := "cd_"

/-- The file-scope variable `all_slot_count`. -/
def all_slot_count : Int := 32

/-- The global variables `opt`, `ropt`, `wopt`, `handles`, `db`.  `handles`
is `none` while null; otherwise it lists the cells of the array it points to,
a cell being `none` when it holds no handle (null or never filled). -/
structure Globals where
  opt : Option Nat
  ropt : Option Nat
  wopt : Option Nat
  handles : Option (List (Option Handle))
  db : Option Nat

/-- The globals at program start. -/
def Globals.start : Globals := ⟨none, none, none, none, none⟩

/-- The read `handles[i]`.  The result is `none` when the read is not a read
of a cell: `handles` is null, or `i` is past the last cell of the array.
Otherwise it is the content of the cell, `some none` for a cell that holds no
handle. -/
def handleAt (hs : Option (List (Option Handle))) (i : Nat) : Option (Option Handle) :=
  match hs with
  | none => none
  | some cells => cells[i]?

/-- The function `rocksdb_option_init` (lines 28-40). -/
def rocksdb_option_init (lib : Lib) (g : Globals) : Ret Globals :=
  { ret := 0
    globals := { g with opt := some lib.options_create, ropt := some lib.readoptions_create,
                        wopt := some lib.writeoptions_create }
    events := [.call .options_create none, .call .readoptions_create none,
               .call .writeoptions_create none,
               .call (.options_set_create_if_missing 1) none,
               .call (.readoptions_set_verify_checksums 1) none,
               .call (.readoptions_set_fill_cache 1) none,
               .call (.writeoptions_set_sync 1) none] }

/-- The function `rocksdb_open_cf` (lines 42-74).  The array `cfs` has `size`
cells; `*cfs = NULL` leaves cell 0 without a handle, and after the call cell
`i` holds the `i`-th handle the library wrote, if it wrote one.  The array
becomes the global `handles` whether or not the call failed. -/
def rocksdb_open_cf (lib : Lib) (g : Globals) (db_path : String) (cf_names : List String)
    (size : Int) : Ret Globals :=
  let opts := List.replicate size.toNat g.opt
  let r := lib.open_column_families db_path size cf_names opts
  let cfs := (List.range size.toNat).map (fun i => r.handles[i]?)
  { ret := if r.err = none then 0 else -1
    globals := { g with db := r.db, handles := some cfs }
    events := [.call (.open_column_families g.opt db_path size cf_names opts) r.err,
               (match r.err with
                | some e => .fprintf "file: %s, line: %d db path: %s, err: %s\n"
                              [.file, .line 60, .str db_path, .str e]
                | none => .fprintf "file: %s, line: %d open column families success\n"
                              [.file, .line 64]),
               .call (.list_column_families_destroy cf_names size) none] }

/-- The assignment `op_cf_count = slot_end - slot_from` (line 86). -/
def op_cf_count (slot_from slot_end : Int) : Int := wrapInt (slot_end - slot_from)

/-- The function `rocksdb_batch_add_cf` (lines 76-114).  The global `handles`
is assigned the array the creation call stored, after the report and
whatever the call returned. -/
def rocksdb_batch_add_cf (fuel : Nat) (lib : Lib) (g : Globals) (slot_from slot_end : Int) :
    Option (BatchRet Globals) :=
  let count := op_cf_count slot_from slot_end
  match forLoop (fun i => decide (i < slot_end))
      (fun i a => a.store i (sprintf_sd CF_PREFIX i)) fuel slot_from NameArray.fresh with
  | none => none
  | some arr =>
    let names := arr.view count
    let r := lib.create_column_families names count
    let report : Event :=
      if r.ret ≠ 0 then
        .fprintf "file: %s, line: %d create column families failed, fatal error: %s\n"
          [.file, .line 100, .errstr r.err]
      else
        .fprintf "file: %s, line: %d batch create slots success count: %d\n"
          [.file, .line 104, .int r.success_count]
    match forLoop (fun i => decide (i < slot_end))
        (fun i (fr : List (Int × Option String)) => fr ++ [(i, arr.cells i)]) fuel 0 [] with
    | none => none
    | some frees =>
      some { ret := r.ret
             globals := { g with handles := r.cfs }
             events := [.call (.create_column_families g.opt names count) r.err, report]
             entries := count
             stores := arr.stores
             frees := frees }

/-- The function `rocks_db_open` (lines 116-143). -/
def rocks_db_open (fuel : Nat) (lib : Lib) (g : Globals) (path : String) :
    Option (Ret Globals) :=
  let l := lib.list_column_families path
  let listing : Event := .call (.list_column_families g.opt path) l.err
  match l.err with
  | some e =>
    let complaint : Event :=
      .fprintf "file: %s, line: %d db path: %s, get column family empty, error: %s\n"
        [.file, .line 126, .str path, .str e]
    let o := rocksdb_open_cf lib g path ["default"] 1
    if o.ret ≠ 0 then
      some { ret := o.ret
             globals := o.globals
             events := [listing, complaint] ++ o.events ++
               [.fprintf "file: %s, line: %d column family open failed\n" [.file, .line 135]] }
    else
      match rocksdb_batch_add_cf fuel lib o.globals 0 all_slot_count with
      | none => none
      | some b =>
        some { ret := b.ret
               globals := b.globals
               events := [listing, complaint] ++ o.events ++ b.events }
  | none =>
    let size : Nat := l.names.length
    let o := rocksdb_open_cf lib g path l.names (wrapInt size)
    some { ret := o.ret
           globals := o.globals
           events := [listing,
                      .fprintf "file: %s, line: %d column family size: %d\n"
                        [.file, .line 141, .int (wrapInt size)]] ++ o.events }

/-- Modelled from the spec: the content, when `main` starts writing, of the
column family that the content of a cell of `handles` designates; a cell that
holds no handle designates no column family. -/
def contentAt (lib : Lib) (h : Option Handle) : List (Bytes × Bytes) :=
  match h with
  | none => []
  | some hd => cfBuild (lib.history hd)

/-- One `rocksdb_put_cf(db, wopt, h, key, keylen, val, vallen, &err)` of
`main`, the `n`-th of the run: the content of the column family afterwards and
the event.  The effect on the content is the library's, modelled by `cfPut`:
the write takes effect when the handle is one and the library reports no
error. -/
def put_cf (lib : Lib) (n : Nat) (h : Option Handle) (cf : List (Bytes × Bytes))
    (key : String) (keylen : Nat) (val : String) (vallen : Nat) :
    List (Bytes × Bytes) × Event :=
  (if h.isSome ∧ lib.put_err n = none then cfPut cf (bytesOf key keylen) (bytesOf val vallen)
   else cf,
   .call (.put_cf h key keylen val vallen) (lib.put_err n))

/-- The loop of `main` at lines 169-176: while the iterator is valid, read
the key and the value, print them, advance.  The result is the events of the
loop, the last one being the `rocksdb_iter_valid` call that returned false. -/
def scan : Nat → Iter → Option (List Event)
  | 0, _ => none
  | fuel + 1, it =>
    if it.valid then
      (scan fuel it.next).map (fun rest =>
        [.call (.iter_valid true) none,
         .call (.iter_key it.key) none,
         .call (.iter_value it.value) none,
         .fprintf "key: %s\t val: %*s\n"
           [.bytes it.key, .int (wrapInt it.value.length), .bytes it.value],
         .call .iter_next none] ++ rest)
    else some [.call (.iter_valid false) none]

/-- The events of a run of the loop that visits the given entries in turn:
per entry the successful validity test, the key and value reads, the print
and the advance; at the end the validity test that fails. -/
def loopEvents : List (Bytes × Bytes) → List Event
  | [] => [.call (.iter_valid false) none]
  | e :: rest =>
    [.call (.iter_valid true) none,
     .call (.iter_key e.1) none,
     .call (.iter_value e.2) none,
     .fprintf "key: %s\t val: %*s\n" [.bytes e.1, .int (wrapInt e.2.length), .bytes e.2],
     .call .iter_next none] ++ loopEvents rest

/-- The entries of a content whose key `k` satisfies `lo <= k < hi`. -/
def inRange (lo hi : Bytes) (cf : List (Bytes × Bytes)) : List (Bytes × Bytes) :=
  (cf.filter (fun e => !keyLt e.1 lo)).filter (fun e => keyLt e.1 hi)

/-- The four writes of `main` (lines 152-155) through the handle `h`. -/
def fourPuts (lib : Lib) (h : Option Handle) (cf : List (Bytes × Bytes)) :
    List (Bytes × Bytes) × List Event :=
  let p1 := put_cf lib 0 h cf "12724#t1" 8 "val_12724" 9
  let p2 := put_cf lib 1 h p1.1 "12724#t2" 8 "val_12725" 9
  let p3 := put_cf lib 2 h p2.1 "12726#t1" 8 "val_12726" 9
  let p4 := put_cf lib 3 h p3.1 "12727#t1" 8 "val_12727" 9
  (p4.1, [p1.2, p2.2, p3.2, p4.2])

/-- Result of `main`: the outcome, the events of the whole run, and the content
the snapshot of line 158 captured (empty when the run never took it). -/
structure MainRet where
  outcome : Outcome
  events : List Event
  snapshot : List (Bytes × Bytes)

/-- The statements of `main` from the first put to the iterator's destruction
(lines 152-178), given the content `h` of the cell `handles[20]`: the events
and the content captured by the snapshot.  The five reads of `handles[20]` in
these lines yield the same cell, since nothing assigns `handles` in between. -/
def dataPath (fuel : Nat) (lib : Lib) (h : Option Handle) :
    Option (List Event × List (Bytes × Bytes)) :=
  let w := fourPuts lib h (contentAt lib h)
  let snap := w.1
  let it := (Iter.create snap (some (bytesOf "12726$" 6))).seek (bytesOf "12724#" 6)
  match scan fuel it with
  | none => none
  | some loop =>
    some (w.2 ++
          [.call .create_snapshot none,
           .call .readoptions_set_snapshot none,
           .call (.readoptions_set_iterate_upper_bound "12726$" 6) none,
           .call (.create_iterator_cf h) none,
           .call (.iter_seek "12724#" 6) none,
           .call .iter_get_error lib.iter_err] ++ loop ++ [.call .iter_destroy none],
          snap)

/-- The function `main` (lines 145-188).  The first statement after
`rocks_db_open` reads `handles[20]` (line 152); when `handles` is null or has
no cell 20 the run stops there, before any put. -/
def main (fuel : Nat) (lib : Lib) : Option MainRet :=
  let i := rocksdb_option_init lib Globals.start
  match rocks_db_open fuel lib i.globals DBPath with
  | none => none
  | some r =>
    match handleAt r.globals.handles 20 with
    | none => some { outcome := .fault, events := i.events ++ r.events, snapshot := [] }
    | some h =>
      match dataPath fuel lib h with
      | none => none
      | some d =>
        if r.ret ≠ 0 then
          some { outcome := .returned r.ret
                 events := i.events ++ r.events ++ d.1 ++ [.fprintf "db open failed\n" []]
                 snapshot := d.2 }
        else
          some { outcome := .idle, events := i.events ++ r.events ++ d.1, snapshot := d.2 }

end UpperBoundExample

/-- The content of a column family that holds exactly the four entries
`main` writes (lines 152-155), written in the order of the source. -/
def fourKeys : List (Bytes × Bytes) :=
  cfBuild [(bytesOf "12724#t1" 8, bytesOf "val_12724" 9),
           (bytesOf "12724#t2" 8, bytesOf "val_12725" 9),
           (bytesOf "12726#t1" 8, bytesOf "val_12726" 9),
           (bytesOf "12727#t1" 8, bytesOf "val_12727" 9)]

/-! ## Sample runs -/

/-- A run on a fresh database: listing fails, opening `default` succeeds, and
the creation call succeeds and hands out handle `200 + i` for the `i`-th name. -/
def freshRun : Lib where
  options_create := 1
  readoptions_create := 2
  writeoptions_create := 3
  list_column_families := fun _ => ⟨some "IO error: No such file or directory", []⟩
  open_column_families := fun _ _ _ _ => ⟨none, some 9, [100]⟩
  create_column_families := fun names count =>
    ⟨0, none, some ((List.range names.length).map (fun i => some (200 + i))), count⟩
  put_err := fun _ => none
  iter_err := none
  history := fun _ => []

/-- The handle `freshRun` gives the column family `cd_n`: `200 + n`. -/
def sampleHandleOf (name : String) : Handle := 200 + undecimal (name.toList.drop 3)

/-- A run like `freshRun` in which the first `rocksdb_put_cf` fails. -/
def putFailsRun : Lib :=
  { freshRun with put_err := fun n => if n = 0 then some "IO error: disk full" else none }

/-- A run like `freshRun` in which the creation call fails: it returns `-1`,
leaves an error string and leaves its output array null. -/
def createFailsRun : Lib :=
  { freshRun with create_column_families := fun _ _ =>
      ⟨-1, some "Invalid argument: column family exists", none, 0⟩ }

/-- A run like `freshRun` in which the creation call fails after the column
families exist: it returns `-1`, leaves an error string, and its output array
holds the 32 handles. -/
def createFailsLateRun : Lib :=
  { freshRun with create_column_families := fun names _ =>
      ⟨-1, some "IO error: manifest write failed",
        some ((List.range names.length).map (fun i => some (200 + i))), 0⟩ }

/-- A run like `freshRun` in which the iterator reports an error after the seek. -/
def iterFailsRun : Lib :=
  { freshRun with iter_err := some "Corruption: block checksum mismatch" }

/-- A run that reopens a database holding `default`, `cd_0` and `cd_1`: the
open call hands out handle `100 + i` for the `i`-th listed name. -/
def reopenRun : Lib :=
  { freshRun with
      list_column_families := fun _ => ⟨none, ["default", "cd_0", "cd_1"]⟩
      open_column_families := fun _ size _ _ =>
        ⟨none, some 9, (List.range size.toNat).map (fun i => 100 + i)⟩ }

/-! ## Machine integers, loops and decimal rendering: lemmas -/

theorem wrapInt_eq (x : Int) (h1 : INT_MIN ≤ x) (h2 : x ≤ INT_MAX) : wrapInt x = x := by
  unfold wrapInt
  unfold INT_MIN at h1
  unfold INT_MAX at h2
  omega

theorem wrapInt_le (x : Int) : wrapInt x ≤ INT_MAX := by
  unfold wrapInt INT_MAX
  omega

theorem wrapInt_ge (x : Int) : INT_MIN ≤ wrapInt x := by
  unfold wrapInt INT_MIN
  omega

theorem forLoop_eq {σ : Type} (cond : Int → Bool) (body : Int → σ → σ) :
    ∀ (n fuel : Nat) (i : Int) (s : σ), n < fuel →
      (∀ k : Nat, k < n → cond (i + k) = true) → cond (i + n) = false →
      INT_MIN ≤ i → i + n ≤ INT_MAX →
      forLoop cond body fuel i s = some ((intsFrom i n).foldl (fun s j => body j s) s) := by
  intro n
  induction n with
  | zero =>
    intro fuel i s hf _ hstop _ _
    obtain ⟨f, rfl⟩ : ∃ f, fuel = f + 1 := ⟨fuel - 1, by omega⟩
    have hc : cond i = false := by simpa using hstop
    simp [forLoop, hc, intsFrom]
  | succ n ih =>
    intro fuel i s hf hgo hstop hlo hhi
    obtain ⟨f, rfl⟩ : ∃ f, fuel = f + 1 := ⟨fuel - 1, by omega⟩
    have hc : cond i = true := by simpa using hgo 0 (by omega)
    have hw : wrapInt (i + 1) = i + 1 := by
      apply wrapInt_eq
      · omega
      · push_cast at hhi; omega
    simp only [forLoop, hc, if_true, hw, intsFrom, List.foldl_cons]
    apply ih f (i + 1) (body i s) (by omega)
    · intro k hk
      have := hgo (k + 1) (by omega)
      push_cast at this
      rw [← this]; congr 1; ring
    · rw [← hstop]; congr 1; push_cast; ring
    · omega
    · push_cast at hhi; omega

theorem forLoop_never {σ : Type} (cond : Int → Bool) (body : Int → σ → σ)
    (hall : ∀ i, i ≤ INT_MAX → cond i = true) :
    ∀ (fuel : Nat) (i : Int) (s : σ), i ≤ INT_MAX → forLoop cond body fuel i s = none := by
  intro fuel
  induction fuel with
  | zero => intro i s _; rfl
  | succ f ih =>
    intro i s hi
    simp only [forLoop, hall i hi, if_true]
    exact ih _ _ (wrapInt_le _)


theorem digitChar_toNat (d : Nat) (h : d < 10) : (digitChar d).toNat - 48 = d := by
  interval_cases d <;> decide

theorem undecimal_append (cs : List Char) (c : Char) :
    undecimal (cs ++ [c]) = 10 * undecimal cs + (c.toNat - 48) := by
  simp [undecimal, List.foldl_append]

theorem undecimal_decimalAux : ∀ (fuel n : Nat), n < fuel → undecimal (decimalAux fuel n) = n := by
  intro fuel
  induction fuel with
  | zero => intro n h; omega
  | succ f ih =>
    intro n h
    unfold decimalAux
    split
    · rename_i h10
      simp [undecimal, digitChar_toNat n h10]
    · rename_i h10
      rw [undecimal_append, ih (n / 10) (by omega), digitChar_toNat _ (Nat.mod_lt _ (by decide))]
      omega

theorem decimal_injective : Function.Injective decimal := by
  intro a b h
  have ha := undecimal_decimalAux (a + 1) a (by omega)
  have hb := undecimal_decimalAux (b + 1) b (by omega)
  unfold decimal at h
  rw [h] at ha
  omega

theorem fmt_d_natCast (n : Nat) : fmt_d (n : Int) = String.mk (decimal n) := by
  simp [fmt_d]

theorem sprintf_sd_injective (s : String) (a b : Nat)
    (h : sprintf_sd s (a : Int) = sprintf_sd s (b : Int)) : a = b := by
  simp only [sprintf_sd, fmt_d_natCast] at h
  have h2 := congrArg String.data h
  simp only [String.data_append] at h2
  exact decimal_injective (List.append_cancel_left h2)


theorem mem_intsFrom : ∀ (n : Nat) (lo j : Int), j ∈ intsFrom lo n ↔ lo ≤ j ∧ j < lo + n := by
  intro n
  induction n with
  | zero => intro lo j; simp only [intsFrom, List.not_mem_nil, false_iff]; omega
  | succ n ih =>
    intro lo j
    simp only [intsFrom, List.mem_cons, ih]
    omega

theorem intsFrom_length : ∀ (n : Nat) (lo : Int), (intsFrom lo n).length = n := by
  intro n
  induction n with
  | zero => intro lo; rfl
  | succ n ih => intro lo; simp [intsFrom, ih]

theorem foldl_store_cells (f : Int → String) : ∀ (n : Nat) (lo : Int) (a : NameArray) (j : Int),
    ((intsFrom lo n).foldl (fun a i => a.store i (f i)) a).cells j =
      if lo ≤ j ∧ j < lo + n then some (f j) else a.cells j := by
  intro n
  induction n with
  | zero =>
    intro lo a j
    have : ¬ (lo ≤ j ∧ j < lo + ((0 : Nat) : Int)) := by omega
    rw [if_neg this]; rfl
  | succ n ih =>
    intro lo a j
    simp only [intsFrom, List.foldl_cons]
    rw [ih]
    by_cases h1 : lo + 1 ≤ j ∧ j < lo + 1 + (n : Int)
    · have h2 : lo ≤ j ∧ j < lo + ((n + 1 : Nat) : Int) := by omega
      rw [if_pos h1, if_pos h2]
    · by_cases h3 : j = lo
      · have h2 : lo ≤ j ∧ j < lo + ((n + 1 : Nat) : Int) := by omega
        rw [if_neg h1, if_pos h2]
        simp [NameArray.store, h3]
      · have h2 : ¬ (lo ≤ j ∧ j < lo + ((n + 1 : Nat) : Int)) := by omega
        rw [if_neg h1, if_neg h2]
        simp [NameArray.store, h3]

theorem foldl_store_stores (f : Int → String) : ∀ (n : Nat) (lo : Int) (a : NameArray),
    ((intsFrom lo n).foldl (fun a i => a.store i (f i)) a).stores = a.stores ++ intsFrom lo n := by
  intro n
  induction n with
  | zero => intro lo a; simp [intsFrom]
  | succ n ih =>
    intro lo a
    simp only [intsFrom, List.foldl_cons]
    rw [ih]
    simp [NameArray.store]

theorem foldl_frees (c : Int → Option String) : ∀ (l : List Int) (acc : List (Int × Option String)),
    l.foldl (fun fr i => fr ++ [(i, c i)]) acc = acc ++ l.map (fun i => (i, c i)) := by
  intro l
  induction l with
  | nil => intro acc; simp
  | cons x xs ih => intro acc; simp [ih]

/-- The name loop `for (i = lo; i <= hi; i++)` (or `i < hi + 1`) ends and fills
exactly the cells `lo .. lo + n - 1`. -/
theorem nameLoop_spec (cond : Int → Bool) (pre : String) (n fuel : Nat) (lo : Int)
    (hf : n < fuel) (hgo : ∀ k : Nat, k < n → cond (lo + k) = true)
    (hstop : cond (lo + n) = false) (hlo : INT_MIN ≤ lo) (hhi : lo + n ≤ INT_MAX) :
    ∃ arr, forLoop cond (fun i a => a.store i (sprintf_sd pre i)) fuel lo NameArray.fresh
        = some arr ∧ arr.stores = intsFrom lo n ∧
      ∀ j, arr.cells j = if lo ≤ j ∧ j < lo + n then some (sprintf_sd pre j) else none := by
  refine ⟨_, forLoop_eq cond _ n fuel lo _ hf hgo hstop hlo hhi, ?_, ?_⟩
  · rw [foldl_store_stores]; simp [NameArray.fresh]
  · intro j; rw [foldl_store_cells]; simp [NameArray.fresh]

/-- The loop of `free` calls ends and frees the cells `0 .. m - 1` in order. -/
theorem freeLoop_spec (cond : Int → Bool) (c : Int → Option String) (m fuel : Nat)
    (hf : m < fuel) (hgo : ∀ k : Nat, k < m → cond (0 + k) = true)
    (hstop : cond (0 + m) = false) (hhi : (0 : Int) + m ≤ INT_MAX) :
    forLoop cond (fun i (fr : List (Int × Option String)) => fr ++ [(i, c i)]) fuel 0 []
      = some ((intsFrom 0 m).map (fun i => (i, c i))) := by
  rw [forLoop_eq cond _ m fuel 0 _ hf hgo hstop (by unfold INT_MIN; omega) hhi, foldl_frees]
  simp


theorem isCreate_ite (c : Prop) [Decidable c] (a b : Event) (ha : a.isCreate = false)
    (hb : b.isCreate = false) : (if c then a else b).isCreate = false := by
  split <;> assumption

theorem cf_op_cf_count (slot_from slot_end : Int) (h0 : 0 ≤ slot_from) (h1 : slot_from ≤ slot_end)
    (h2 : slot_end < INT_MAX) :
    ColumnFamilyExample.op_cf_count slot_from slot_end = slot_end - slot_from + 1 := by
  unfold ColumnFamilyExample.op_cf_count wrapInt
  unfold INT_MAX at h2
  omega

/-- What `rocksdb_batch_add_cf` of the column-family example does when
`0 <= slot_from <= slot_end < INT_MAX` and the fuel covers both loops. -/
theorem cf_batch_spec (fuel : Nat) (lib : Lib) (g : ColumnFamilyExample.Globals)
    (slot_from slot_end : Int) (h0 : 0 ≤ slot_from) (h1 : slot_from ≤ slot_end)
    (h2 : slot_end < INT_MAX) (hf : slot_end + 2 ≤ fuel) :
    ∃ (b : BatchRet ColumnFamilyExample.Globals) (names : List (Option String)),
      ColumnFamilyExample.rocksdb_batch_add_cf fuel lib g slot_from slot_end = some b ∧
      names = (List.range (slot_end - slot_from + 1).toNat).map (fun j : Nat =>
        if slot_from ≤ (j : Int) then some (sprintf_sd ColumnFamilyExample.CF_PREFIX j)
        else none) ∧
      b.ret = (lib.create_column_families names (slot_end - slot_from + 1)).ret ∧
      b.globals = g ∧
      b.events.filter Event.isCreate =
        [.call (.create_column_families g.opt names (slot_end - slot_from + 1))
          (lib.create_column_families names (slot_end - slot_from + 1)).err] ∧
      b.events.length = 2 ∧
      b.entries = slot_end - slot_from + 1 ∧
      b.stores = intsFrom slot_from (slot_end - slot_from + 1).toNat ∧
      b.frees = (intsFrom 0 (slot_end + 1).toNat).map (fun i =>
        (i, if slot_from ≤ i ∧ i ≤ slot_end
            then some (sprintf_sd ColumnFamilyExample.CF_PREFIX i) else none)) := by
  have hmax : slot_end < 2147483647 := h2
  obtain ⟨arr, harr, hstores, hcells⟩ := nameLoop_spec (fun i => decide (i ≤ slot_end))
    ColumnFamilyExample.CF_PREFIX (slot_end - slot_from + 1).toNat fuel slot_from
    (by omega) (by intro k hk; simp only [decide_eq_true_eq]; omega)
    (by simp only [decide_eq_false_iff_not]; omega) (by unfold INT_MIN; omega)
    (by unfold INT_MAX; omega)
  have hfree := freeLoop_spec (fun i => decide (i ≤ slot_end)) arr.cells (slot_end + 1).toNat fuel
    (by omega) (by intro k hk; simp only [decide_eq_true_eq]; omega)
    (by simp only [decide_eq_false_iff_not]; omega) (by unfold INT_MAX; omega)
  have hcount := cf_op_cf_count slot_from slot_end h0 h1 h2
  have hview : arr.view (slot_end - slot_from + 1) =
      (List.range (slot_end - slot_from + 1).toNat).map (fun j : Nat =>
        if slot_from ≤ (j : Int) then some (sprintf_sd ColumnFamilyExample.CF_PREFIX j)
        else none) := by
    unfold NameArray.view
    apply List.map_congr_left
    intro j hj
    rw [List.mem_range] at hj
    rw [hcells]
    by_cases hs : slot_from ≤ (j : Int)
    · rw [if_pos hs, if_pos ⟨hs, by omega⟩]
    · rw [if_neg hs, if_neg (fun h => hs h.1)]
  cases hres : ColumnFamilyExample.rocksdb_batch_add_cf fuel lib g slot_from slot_end with
  | none =>
    simp only [ColumnFamilyExample.rocksdb_batch_add_cf, harr, hfree] at hres
    cases hres
  | some b =>
    simp only [ColumnFamilyExample.rocksdb_batch_add_cf, harr, hfree, hcount, hview,
      Option.some.injEq] at hres
    subst hres
    refine ⟨_, _, rfl, rfl, rfl, rfl, ?_, rfl, rfl, hstores, ?_⟩
    · rw [List.filter_cons_of_pos (by rfl), List.filter_cons_of_neg, List.filter_nil]
      intro h
      rw [isCreate_ite] at h
      · cases h
      · rfl
      · rfl
    · apply List.map_congr_left
      intro i hi
      rw [mem_intsFrom] at hi
      rw [hcells]
      by_cases hs : slot_from ≤ i ∧ i ≤ slot_end
      · rw [if_pos hs, if_pos ⟨hs.1, by omega⟩]
      · rw [if_neg hs, if_neg (fun h => hs ⟨h.1, by omega⟩)]


theorem sprintf_sd_natCast (pre : String) (j : Nat) :
    sprintf_sd pre (j : Int) = pre ++ String.mk (decimal j) := by
  rw [sprintf_sd, fmt_d_natCast]

theorem slotNames_length (pre : String) (n : Nat) : (slotNames pre n).length = n := by
  simp [slotNames]

theorem slotNames_getElem? (pre : String) (n i : Nat) (h : i < n) :
    (slotNames pre n)[i]? = some (some (pre ++ String.mk (decimal i))) := by
  simp [slotNames, List.getElem?_map, List.getElem?_range h]

theorem slotNames_nodup (pre : String) (n : Nat) : (slotNames pre n).Nodup := by
  unfold slotNames
  apply List.Nodup.map _ (List.nodup_range n)
  intro a b h
  simp only [Option.some.injEq] at h
  apply sprintf_sd_injective pre
  rw [sprintf_sd_natCast, sprintf_sd_natCast, h]

/-- With `slot_from = 0` the view handed to the creation call is `slotNames`. -/
theorem view_from_zero (pre : String) (n : Nat) :
    (List.range n).map (fun j : Nat => if (0 : Int) ≤ (j : Int) then some (sprintf_sd pre j)
        else none) = slotNames pre n := by
  unfold slotNames
  apply List.map_congr_left
  intro j _
  rw [if_pos (by omega), sprintf_sd_natCast]


/-- C9 (amended): in `rocksdb_batch_add_cf` of c_column_family_example.c, for
every `0 <= slot_from <= slot_end < INT_MAX` the function runs to its end, the
name array has `slot_end - slot_from + 1` cells, the stores go to the indices
`slot_from .. slot_end` and the frees to `0 .. slot_end`; every stored index and
every freed index lies inside the array and every freed cell had been stored
to, if and only if `slot_from = 0`; and for `slot_from >= 1` the store at index
`slot_end` is past the end of the array. -/
theorem batch_add_cf_memory (fuel : Nat) (lib : Lib) (g : ColumnFamilyExample.Globals)
    (slot_from slot_end : Int) (h0 : 0 ≤ slot_from) (h1 : slot_from ≤ slot_end)
    (h2 : slot_end < INT_MAX) (hf : slot_end + 2 ≤ fuel) :
    ∃ b, ColumnFamilyExample.rocksdb_batch_add_cf fuel lib g slot_from slot_end = some b ∧
      b.entries = slot_end - slot_from + 1 ∧
      b.stores = intsFrom slot_from (slot_end - slot_from + 1).toNat ∧
      b.frees.map Prod.fst = intsFrom 0 (slot_end + 1).toNat ∧
      (∀ i, i ∈ b.stores ↔ slot_from ≤ i ∧ i ≤ slot_end) ∧
      (∀ i, i ∈ b.frees.map Prod.fst ↔ 0 ≤ i ∧ i ≤ slot_end) ∧
      (((∀ i ∈ b.stores, inside b.entries i) ∧
        (∀ f ∈ b.frees, inside b.entries f.1 ∧ f.2.isSome = true)) ↔ slot_from = 0) ∧
      (1 ≤ slot_from → slot_end ∈ b.stores ∧ ¬ inside b.entries slot_end) := by
  obtain ⟨b, names, hb, -, -, -, -, -, hent, hst, hfr⟩ :=
    cf_batch_spec fuel lib g slot_from slot_end h0 h1 h2 hf
  have hmem : ∀ i, i ∈ b.stores ↔ slot_from ≤ i ∧ i ≤ slot_end := by
    intro i; rw [hst, mem_intsFrom]; omega
  have hfst : b.frees.map Prod.fst = intsFrom 0 (slot_end + 1).toNat := by
    rw [hfr, List.map_map]
    exact List.map_id _
  refine ⟨b, hb, hent, hst, hfst, hmem, ?_, ?_, ?_⟩
  · intro i; rw [hfst, mem_intsFrom]; omega
  · constructor
    · rintro ⟨hs, -⟩
      have := hs slot_end ((hmem _).2 ⟨h1, le_refl _⟩)
      unfold inside at this
      omega
    · intro hz
      subst hz
      constructor
      · intro i hi
        rw [hmem] at hi
        unfold inside
        omega
      · intro f hf
        rw [hfr, List.mem_map] at hf
        obtain ⟨i, hi, rfl⟩ := hf
        rw [mem_intsFrom] at hi
        have hin : 0 ≤ i ∧ i ≤ slot_end := by omega
        refine ⟨?_, ?_⟩
        · show inside b.entries i
          unfold inside
          omega
        · show (if 0 ≤ i ∧ i ≤ slot_end then some _ else none : Option String).isSome = true
          rw [if_pos hin]
          rfl
  · intro h
    refine ⟨(hmem _).2 ⟨h1, le_refl _⟩, ?_⟩
    unfold inside
    omega

/-- C9, witness: `slot_from = 1`, `slot_end = 3`. -/
theorem batch_add_cf_memory_witness :
    ∃ b, ColumnFamilyExample.rocksdb_batch_add_cf 5 freshRun ColumnFamilyExample.Globals.start 1 3
        = some b ∧ b.entries = 3 ∧ b.stores = [1, 2, 3] ∧ ¬ inside b.entries 3 := by
  obtain ⟨b, hb, he, hs, -, -, -, -, hlast⟩ :=
    batch_add_cf_memory 5 freshRun ColumnFamilyExample.Globals.start 1 3 (by decide) (by decide)
      (by decide) (by decide)
  exact ⟨b, hb, he, hs, (hlast (by decide)).2⟩

/-- C9, counterexample: with `slot_from = 0` and `slot_end = INT_MAX` the
count `slot_end - slot_from + 1` does not fit an `int`: the count handed to
`malloc` is `-2147483648`, not `2147483648`, and index 0 is not inside the array. -/
theorem batch_add_cf_memory_int_max :
    ColumnFamilyExample.op_cf_count 0 2147483647 = -2147483648 ∧
    ColumnFamilyExample.op_cf_count 0 2147483647 ≠ 2147483647 - 0 + 1 ∧
    ¬ inside (ColumnFamilyExample.op_cf_count 0 2147483647) 0 := by
  decide


theorem ub_op_cf_count (slot_from slot_end : Int) (h0 : 0 ≤ slot_from) (h1 : slot_from ≤ slot_end)
    (h2 : slot_end ≤ INT_MAX) :
    UpperBoundExample.op_cf_count slot_from slot_end = slot_end - slot_from := by
  unfold UpperBoundExample.op_cf_count wrapInt
  unfold INT_MAX at h2
  omega

/-- What `rocksdb_batch_add_cf` of the upper-bound example does when
`0 <= slot_from <= slot_end` and the fuel covers both loops. -/
theorem ub_batch_spec (fuel : Nat) (lib : Lib) (g : UpperBoundExample.Globals)
    (slot_from slot_end : Int) (h0 : 0 ≤ slot_from) (h1 : slot_from ≤ slot_end)
    (h2 : slot_end ≤ INT_MAX) (hf : slot_end + 1 ≤ fuel) :
    ∃ (b : BatchRet UpperBoundExample.Globals) (names : List (Option String)),
      UpperBoundExample.rocksdb_batch_add_cf fuel lib g slot_from slot_end = some b ∧
      names = (List.range (slot_end - slot_from).toNat).map (fun j : Nat =>
        if slot_from ≤ (j : Int) then some (sprintf_sd UpperBoundExample.CF_PREFIX j)
        else none) ∧
      b.ret = (lib.create_column_families names (slot_end - slot_from)).ret ∧
      b.globals = { g with handles := (lib.create_column_families names
        (slot_end - slot_from)).cfs } ∧
      b.events = [.call (.create_column_families g.opt names (slot_end - slot_from))
          (lib.create_column_families names (slot_end - slot_from)).err,
        if (lib.create_column_families names (slot_end - slot_from)).ret ≠ 0 then
          .fprintf "file: %s, line: %d create column families failed, fatal error: %s\n"
            [.file, .line 100,
             .errstr (lib.create_column_families names (slot_end - slot_from)).err]
        else
          .fprintf "file: %s, line: %d batch create slots success count: %d\n"
            [.file, .line 104,
             .int (lib.create_column_families names (slot_end - slot_from)).success_count]] ∧
      b.entries = slot_end - slot_from ∧
      b.stores = intsFrom slot_from (slot_end - slot_from).toNat := by
  have hmax : slot_end ≤ 2147483647 := h2
  obtain ⟨arr, harr, hstores, hcells⟩ := nameLoop_spec (fun i => decide (i < slot_end))
    UpperBoundExample.CF_PREFIX (slot_end - slot_from).toNat fuel slot_from
    (by omega) (by intro k hk; simp only [decide_eq_true_eq]; omega)
    (by simp only [decide_eq_false_iff_not]; omega) (by unfold INT_MIN; omega)
    (by unfold INT_MAX; omega)
  have hfree := freeLoop_spec (fun i => decide (i < slot_end)) arr.cells slot_end.toNat fuel
    (by omega) (by intro k hk; simp only [decide_eq_true_eq]; omega)
    (by simp only [decide_eq_false_iff_not]; omega) (by unfold INT_MAX; omega)
  have hcount := ub_op_cf_count slot_from slot_end h0 h1 h2
  have hview : arr.view (slot_end - slot_from) =
      (List.range (slot_end - slot_from).toNat).map (fun j : Nat =>
        if slot_from ≤ (j : Int) then some (sprintf_sd UpperBoundExample.CF_PREFIX j)
        else none) := by
    unfold NameArray.view
    apply List.map_congr_left
    intro j hj
    rw [List.mem_range] at hj
    rw [hcells]
    by_cases hs : slot_from ≤ (j : Int)
    · rw [if_pos hs, if_pos ⟨hs, by omega⟩]
    · rw [if_neg hs, if_neg (fun h => hs h.1)]
  cases hres : UpperBoundExample.rocksdb_batch_add_cf fuel lib g slot_from slot_end with
  | none =>
    simp only [UpperBoundExample.rocksdb_batch_add_cf, harr, hfree] at hres
    cases hres
  | some b =>
    simp only [UpperBoundExample.rocksdb_batch_add_cf, harr, hfree, hcount, hview,
      Option.some.injEq] at hres
    subst hres
    exact ⟨_, _, rfl, rfl, rfl, rfl, rfl, rfl, hstores⟩


theorem filter_isCreate_open_cf_cf (lib : Lib) (g : ColumnFamilyExample.Globals) (p : String)
    (ns : List String) (sz : Int) :
    (ColumnFamilyExample.rocksdb_open_cf lib g p ns sz).events.filter Event.isCreate = [] := by
  simp only [ColumnFamilyExample.rocksdb_open_cf]
  cases (lib.open_column_families p sz ns (List.replicate sz.toNat g.opt)).err <;> rfl

theorem filter_isCreate_open_cf_ub (lib : Lib) (g : UpperBoundExample.Globals) (p : String)
    (ns : List String) (sz : Int) :
    (UpperBoundExample.rocksdb_open_cf lib g p ns sz).events.filter Event.isCreate = [] := by
  simp only [UpperBoundExample.rocksdb_open_cf]
  cases (lib.open_column_families p sz ns (List.replicate sz.toNat g.opt)).err <;> rfl

/-- The three ways through `rocks_db_open` of the column-family example. -/
theorem cf_rocks_db_open_cases (fuel : Nat) (lib : Lib) (g : ColumnFamilyExample.Globals)
    (path : String) (hf : 16385 ≤ fuel) :
    ∃ r, ColumnFamilyExample.rocks_db_open fuel lib g path = some r ∧
      (r.ret = 0 ↔
        ((lib.list_column_families path).err = none ∧
          (lib.open_column_families path (wrapInt (lib.list_column_families path).names.length)
            (lib.list_column_families path).names
            (List.replicate (wrapInt (lib.list_column_families path).names.length).toNat
              g.opt)).err = none) ∨
        ((lib.list_column_families path).err ≠ none ∧
          (lib.open_column_families path 1 ["default"] [g.opt]).err = none ∧
          (lib.create_column_families (slotNames "cd_" 16384) 16384).ret = 0)) ∧
      ((lib.list_column_families path).err = none → r.events.filter Event.isCreate = []) ∧
      ((lib.list_column_families path).err ≠ none →
        (lib.open_column_families path 1 ["default"] [g.opt]).err ≠ none →
        r.ret = -1 ∧ r.events.filter Event.isCreate = []) ∧
      ((lib.list_column_families path).err ≠ none →
        (lib.open_column_families path 1 ["default"] [g.opt]).err = none →
        r.ret = (lib.create_column_families (slotNames "cd_" 16384) 16384).ret ∧
        r.events.filter Event.isCreate =
          [.call (.create_column_families g.opt (slotNames "cd_" 16384) 16384)
            (lib.create_column_families (slotNames "cd_" 16384) 16384).err]) := by
  have hrep : List.replicate (1 : Int).toNat g.opt = [g.opt] := rfl
  cases hl : (lib.list_column_families path).err with
  | none =>
    cases hres : ColumnFamilyExample.rocks_db_open fuel lib g path with
    | none =>
      simp only [ColumnFamilyExample.rocks_db_open, hl] at hres
      cases hres
    | some r =>
      simp only [ColumnFamilyExample.rocks_db_open, hl, Option.some.injEq] at hres
      subst hres
      refine ⟨_, rfl, ?_, ?_, ?_, ?_⟩
      · simp only [ColumnFamilyExample.rocksdb_open_cf]
        split <;> simp_all
      · intro _
        rw [List.filter_append, filter_isCreate_open_cf_cf]
        rfl
      · intro h; exact absurd rfl h
      · intro h; exact absurd rfl h
  | some e =>
    by_cases ho : (lib.open_column_families path 1 ["default"] [g.opt]).err = none
    · have hret : (ColumnFamilyExample.rocksdb_open_cf lib g path ["default"] 1).ret = 0 := by
        simp only [ColumnFamilyExample.rocksdb_open_cf, hrep, ho, if_true]
      have hopt : (ColumnFamilyExample.rocksdb_open_cf lib g path ["default"] 1).globals.opt
          = g.opt := rfl
      have hslot : wrapInt (ColumnFamilyExample.all_slot_count - 1) = 16383 := by
        unfold ColumnFamilyExample.all_slot_count wrapInt; omega
      obtain ⟨b, names, hb, hnames, hbret, -, hbev, -, -, -, -⟩ :=
        cf_batch_spec fuel lib (ColumnFamilyExample.rocksdb_open_cf lib g path ["default"] 1).globals
          0 16383 (by omega) (by omega) (by unfold INT_MAX; omega) (by omega)
      have h16 : (16383 : Int) - 0 + 1 = 16384 := by omega
      have h16n : (16384 : Int).toNat = 16384 := by omega
      rw [h16] at hnames hbret hbev
      rw [h16n] at hnames
      have hn : names = slotNames "cd_" 16384 := by
        rw [hnames]; exact view_from_zero _ _
      rw [hn] at hbret hbev
      rw [hopt] at hbev
      cases hres : ColumnFamilyExample.rocks_db_open fuel lib g path with
      | none =>
        simp only [ColumnFamilyExample.rocks_db_open, hl, hret, hslot, hb, ne_eq,
          not_true_eq_false, if_false] at hres
        cases hres
      | some r =>
        simp only [ColumnFamilyExample.rocks_db_open, hl, hret, hslot, hb, ne_eq,
          not_true_eq_false, if_false, Option.some.injEq] at hres
        subst hres
        refine ⟨_, rfl, ?_, ?_, ?_, ?_⟩
        · simp only [hbret]
          constructor
          · intro h; right; exact ⟨by simp, ho, h⟩
          · rintro (⟨h, -⟩ | ⟨-, -, h⟩)
            · cases h
            · exact h
        · intro h; cases h
        · intro _ h; exact absurd ho h
        · intro _ _
          refine ⟨hbret, ?_⟩
          simp only [List.filter_append, filter_isCreate_open_cf_cf, hbev]
          rfl
    · have hret : (ColumnFamilyExample.rocksdb_open_cf lib g path ["default"] 1).ret = -1 := by
        simp only [ColumnFamilyExample.rocksdb_open_cf, hrep, ho, if_false]
      have hne : (ColumnFamilyExample.rocksdb_open_cf lib g path ["default"] 1).ret ≠ 0 := by
        rw [hret]; decide
      cases hres : ColumnFamilyExample.rocks_db_open fuel lib g path with
      | none =>
        simp only [ColumnFamilyExample.rocks_db_open, hl, if_pos hne] at hres
        cases hres
      | some r =>
        simp only [ColumnFamilyExample.rocks_db_open, hl, if_pos hne, Option.some.injEq] at hres
        subst hres
        refine ⟨_, rfl, ?_, ?_, ?_, ?_⟩
        · constructor
          · intro h; exact absurd h hne
          · rintro (⟨h, -⟩ | ⟨-, h, -⟩)
            · cases h
            · exact absurd h ho
        · intro h; cases h
        · intro _ _
          refine ⟨hret, ?_⟩
          simp only [List.filter_append, filter_isCreate_open_cf_cf]
          rfl
        · intro _ h; exact absurd h ho


/-- The function `rocks_db_open` of the upper-bound example when listing succeeds. -/
theorem ub_open_listed (fuel : Nat) (lib : Lib) (g : UpperBoundExample.Globals) (path : String)
    (hl : (lib.list_column_families path).err = none) :
    UpperBoundExample.rocks_db_open fuel lib g path = some
      { ret := (UpperBoundExample.rocksdb_open_cf lib g path (lib.list_column_families path).names
                 (wrapInt (lib.list_column_families path).names.length)).ret
        globals := (UpperBoundExample.rocksdb_open_cf lib g path
                 (lib.list_column_families path).names
                 (wrapInt (lib.list_column_families path).names.length)).globals
        events := [.call (.list_column_families g.opt path) none,
                   .fprintf "file: %s, line: %d column family size: %d\n"
                     [.file, .line 141,
                      .int (wrapInt (lib.list_column_families path).names.length)]] ++
                  (UpperBoundExample.rocksdb_open_cf lib g path
                    (lib.list_column_families path).names
                    (wrapInt (lib.list_column_families path).names.length)).events } := by
  simp only [UpperBoundExample.rocks_db_open, hl]

/-- The function `rocks_db_open` of the upper-bound example when listing fails and the
open with `default` fails. -/
theorem ub_open_default_fails (fuel : Nat) (lib : Lib) (g : UpperBoundExample.Globals)
    (path : String) (e : String) (hl : (lib.list_column_families path).err = some e)
    (ho : (lib.open_column_families path 1 ["default"] [g.opt]).err ≠ none) :
    UpperBoundExample.rocks_db_open fuel lib g path = some
      { ret := -1
        globals := (UpperBoundExample.rocksdb_open_cf lib g path ["default"] 1).globals
        events := [.call (.list_column_families g.opt path) (some e),
                   .fprintf
                     "file: %s, line: %d db path: %s, get column family empty, error: %s\n"
                     [.file, .line 126, .str path, .str e]] ++
                  (UpperBoundExample.rocksdb_open_cf lib g path ["default"] 1).events ++
                  [.fprintf "file: %s, line: %d column family open failed\n"
                     [.file, .line 135]] } := by
  have hrep : List.replicate (1 : Int).toNat g.opt = [g.opt] := rfl
  have hret : (UpperBoundExample.rocksdb_open_cf lib g path ["default"] 1).ret = -1 := by
    simp only [UpperBoundExample.rocksdb_open_cf, hrep, ho, if_false]
  have hne : (UpperBoundExample.rocksdb_open_cf lib g path ["default"] 1).ret ≠ 0 := by
    rw [hret]; decide
  simp only [UpperBoundExample.rocks_db_open, hl, if_pos hne]
  rw [hret]

/-- The function `rocks_db_open` of the upper-bound example on a fresh database: listing
fails, the open with `default` succeeds, and the 32 slots are created. -/
theorem ub_open_fresh (fuel : Nat) (lib : Lib) (g : UpperBoundExample.Globals)
    (path : String) (e : String) (hf : 33 ≤ fuel)
    (hl : (lib.list_column_families path).err = some e)
    (ho : (lib.open_column_families path 1 ["default"] [g.opt]).err = none) :
    UpperBoundExample.rocks_db_open fuel lib g path = some
      { ret := (lib.create_column_families (slotNames "cd_" 32) 32).ret
        globals := { (UpperBoundExample.rocksdb_open_cf lib g path ["default"] 1).globals with
                     handles := (lib.create_column_families (slotNames "cd_" 32) 32).cfs }
        events := [.call (.list_column_families g.opt path) (some e),
                   .fprintf
                     "file: %s, line: %d db path: %s, get column family empty, error: %s\n"
                     [.file, .line 126, .str path, .str e]] ++
                  (UpperBoundExample.rocksdb_open_cf lib g path ["default"] 1).events ++
                  [.call (.create_column_families g.opt (slotNames "cd_" 32) 32)
                     (lib.create_column_families (slotNames "cd_" 32) 32).err,
                   if (lib.create_column_families (slotNames "cd_" 32) 32).ret ≠ 0 then
                     .fprintf
                       "file: %s, line: %d create column families failed, fatal error: %s\n"
                       [.file, .line 100,
                        .errstr (lib.create_column_families (slotNames "cd_" 32) 32).err]
                   else
                     .fprintf "file: %s, line: %d batch create slots success count: %d\n"
                       [.file, .line 104,
                        .int (lib.create_column_families (slotNames "cd_" 32)
                          32).success_count]] } := by
  have hrep : List.replicate (1 : Int).toNat g.opt = [g.opt] := rfl
  have hret : (UpperBoundExample.rocksdb_open_cf lib g path ["default"] 1).ret = 0 := by
    simp only [UpperBoundExample.rocksdb_open_cf, hrep, ho, if_true]
  have hopt : (UpperBoundExample.rocksdb_open_cf lib g path ["default"] 1).globals.opt
      = g.opt := rfl
  obtain ⟨b, names, hb, hnames, hbret, hbg, hbev, -, -⟩ :=
    ub_batch_spec fuel lib (UpperBoundExample.rocksdb_open_cf lib g path ["default"] 1).globals
      0 32 (by omega) (by omega) (by unfold INT_MAX; omega) (by omega)
  have h32 : (32 : Int) - 0 = 32 := by omega
  have h32n : (32 : Int).toNat = 32 := by omega
  rw [h32] at hnames hbret hbev hbg
  rw [h32n] at hnames
  have hn : names = slotNames "cd_" 32 := by
    rw [hnames]; exact view_from_zero _ _
  rw [hn] at hbret hbev hbg
  rw [hopt] at hbev
  have hne : ¬ (UpperBoundExample.rocksdb_open_cf lib g path ["default"] 1).ret ≠ 0 := by
    rw [hret]; decide
  simp only [UpperBoundExample.rocks_db_open, hl, if_neg hne, UpperBoundExample.all_slot_count,
    hb]
  rw [hbret, hbg, hbev]


theorem filter_isCreate_pair (x y : Event) (hx : x.isCreate = true) (hy : y.isCreate = false) :
    [x, y].filter Event.isCreate = [x] := by
  simp [List.filter, hx, hy]

/-- The three ways through `rocks_db_open` of the upper-bound example. -/
theorem ub_rocks_db_open_cases (fuel : Nat) (lib : Lib) (g : UpperBoundExample.Globals)
    (path : String) (hf : 33 ≤ fuel) :
    ∃ r, UpperBoundExample.rocks_db_open fuel lib g path = some r ∧
      (r.ret = 0 ↔
        ((lib.list_column_families path).err = none ∧
          (lib.open_column_families path (wrapInt (lib.list_column_families path).names.length)
            (lib.list_column_families path).names
            (List.replicate (wrapInt (lib.list_column_families path).names.length).toNat
              g.opt)).err = none) ∨
        ((lib.list_column_families path).err ≠ none ∧
          (lib.open_column_families path 1 ["default"] [g.opt]).err = none ∧
          (lib.create_column_families (slotNames "cd_" 32) 32).ret = 0)) ∧
      ((lib.list_column_families path).err = none → r.events.filter Event.isCreate = []) ∧
      ((lib.list_column_families path).err ≠ none →
        (lib.open_column_families path 1 ["default"] [g.opt]).err ≠ none →
        r.ret = -1 ∧ r.events.filter Event.isCreate = []) ∧
      ((lib.list_column_families path).err ≠ none →
        (lib.open_column_families path 1 ["default"] [g.opt]).err = none →
        r.ret = (lib.create_column_families (slotNames "cd_" 32) 32).ret ∧
        r.events.filter Event.isCreate =
          [.call (.create_column_families g.opt (slotNames "cd_" 32) 32)
            (lib.create_column_families (slotNames "cd_" 32) 32).err]) := by
  cases hl : (lib.list_column_families path).err with
  | none =>
    refine ⟨_, ub_open_listed fuel lib g path hl, ?_, ?_, ?_, ?_⟩
    · simp only [UpperBoundExample.rocksdb_open_cf]
      split <;> simp_all
    · intro _
      rw [List.filter_append, filter_isCreate_open_cf_ub]
      rfl
    · intro h; exact absurd rfl h
    · intro h; exact absurd rfl h
  | some e =>
    by_cases ho : (lib.open_column_families path 1 ["default"] [g.opt]).err = none
    · refine ⟨_, ub_open_fresh fuel lib g path e hf hl ho, ?_, ?_, ?_, ?_⟩
      · constructor
        · intro h; right; exact ⟨by simp, ho, h⟩
        · rintro (⟨h, -⟩ | ⟨-, -, h⟩)
          · cases h
          · exact h
      · intro h; cases h
      · intro _ h; exact absurd ho h
      · intro _ _
        refine ⟨rfl, ?_⟩
        simp only [List.filter_append, filter_isCreate_open_cf_ub]
        show ([] : List Event) ++ [] ++ _ = _
        rw [filter_isCreate_pair]
        · rfl
        · rfl
        · apply isCreate_ite <;> rfl
    · refine ⟨_, ub_open_default_fails fuel lib g path e hl ho, ?_, ?_, ?_, ?_⟩
      · constructor
        · intro h
          have h2 : (-1 : Int) = 0 := h
          omega
        · rintro (⟨h, -⟩ | ⟨-, h, -⟩)
          · cases h
          · exact absurd h ho
      · intro h; cases h
      · intro _ _
        refine ⟨rfl, ?_⟩
        simp only [List.filter_append, filter_isCreate_open_cf_ub]
        rfl
      · intro _ h; exact absurd h ho

/-- C4: in both examples `rocks_db_open` runs to its end and returns 0 exactly
in two cases: (a) listing the column families succeeds and the open call with
all listed names leaves no error; (b) listing fails, the open call with the
single name `default` leaves no error, and the creation call for the slot names
(`cd_0 .. cd_16383`, resp. `cd_0 .. cd_31`) returns 0.  Whenever listing
succeeds no creation call is made.  If listing fails and the open with
`default` fails, it returns -1 and makes no creation call.  If listing fails
and the open with `default` succeeds, it makes exactly one creation call and
returns what that call returns. -/
theorem rocks_db_open_status (fuel : Nat) (lib : Lib) (path : String) (hf : 16385 ≤ fuel) :
    (∀ g : ColumnFamilyExample.Globals,
      ∃ r, ColumnFamilyExample.rocks_db_open fuel lib g path = some r ∧
      (r.ret = 0 ↔
        ((lib.list_column_families path).err = none ∧
          (lib.open_column_families path (wrapInt (lib.list_column_families path).names.length)
            (lib.list_column_families path).names
            (List.replicate (wrapInt (lib.list_column_families path).names.length).toNat
              g.opt)).err = none) ∨
        ((lib.list_column_families path).err ≠ none ∧
          (lib.open_column_families path 1 ["default"] [g.opt]).err = none ∧
          (lib.create_column_families (slotNames "cd_" 16384) 16384).ret = 0)) ∧
      ((lib.list_column_families path).err = none → r.events.filter Event.isCreate = []) ∧
      ((lib.list_column_families path).err ≠ none →
        (lib.open_column_families path 1 ["default"] [g.opt]).err ≠ none →
        r.ret = -1 ∧ r.events.filter Event.isCreate = []) ∧
      ((lib.list_column_families path).err ≠ none →
        (lib.open_column_families path 1 ["default"] [g.opt]).err = none →
        r.ret = (lib.create_column_families (slotNames "cd_" 16384) 16384).ret ∧
        r.events.filter Event.isCreate =
          [.call (.create_column_families g.opt (slotNames "cd_" 16384) 16384)
            (lib.create_column_families (slotNames "cd_" 16384) 16384).err])) ∧
    (∀ g : UpperBoundExample.Globals,
      ∃ r, UpperBoundExample.rocks_db_open fuel lib g path = some r ∧
      (r.ret = 0 ↔
        ((lib.list_column_families path).err = none ∧
          (lib.open_column_families path (wrapInt (lib.list_column_families path).names.length)
            (lib.list_column_families path).names
            (List.replicate (wrapInt (lib.list_column_families path).names.length).toNat
              g.opt)).err = none) ∨
        ((lib.list_column_families path).err ≠ none ∧
          (lib.open_column_families path 1 ["default"] [g.opt]).err = none ∧
          (lib.create_column_families (slotNames "cd_" 32) 32).ret = 0)) ∧
      ((lib.list_column_families path).err = none → r.events.filter Event.isCreate = []) ∧
      ((lib.list_column_families path).err ≠ none →
        (lib.open_column_families path 1 ["default"] [g.opt]).err ≠ none →
        r.ret = -1 ∧ r.events.filter Event.isCreate = []) ∧
      ((lib.list_column_families path).err ≠ none →
        (lib.open_column_families path 1 ["default"] [g.opt]).err = none →
        r.ret = (lib.create_column_families (slotNames "cd_" 32) 32).ret ∧
        r.events.filter Event.isCreate =
          [.call (.create_column_families g.opt (slotNames "cd_" 32) 32)
            (lib.create_column_families (slotNames "cd_" 32) 32).err])) :=
  ⟨fun g => cf_rocks_db_open_cases fuel lib g path hf,
   fun g => ub_rocks_db_open_cases fuel lib g path (by omega)⟩

/-- C4, witness: a fresh database (case b) with fuel 16385: both examples
return 0. -/
theorem rocks_db_open_status_witness :
    (∃ r, ColumnFamilyExample.rocks_db_open 16385 freshRun ColumnFamilyExample.Globals.start
        "/tmp/rocksdb_simple_example" = some r ∧ r.ret = 0) ∧
    (∃ r, UpperBoundExample.rocks_db_open 16385 freshRun UpperBoundExample.Globals.start
        "/tmp/rocksdb_simple_example" = some r ∧ r.ret = 0) := by
  have h := rocks_db_open_status 16385 freshRun "/tmp/rocksdb_simple_example" (le_refl _)
  constructor
  · obtain ⟨r, hr, hiff, -⟩ := h.1 ColumnFamilyExample.Globals.start
    exact ⟨r, hr, hiff.2 (Or.inr ⟨by simp [freshRun], rfl, rfl⟩)⟩
  · obtain ⟨r, hr, hiff, -⟩ := h.2 UpperBoundExample.Globals.start
    exact ⟨r, hr, hiff.2 (Or.inr ⟨by simp [freshRun], rfl, rfl⟩)⟩


/-- C8 (amended): in c_column_family_example.c, for every
`0 <= slot_end < INT_MAX`, `rocksdb_batch_add_cf(0, slot_end)` runs to its end
and makes one creation call, with the count `slot_end + 1` and a name list of
that length whose entry at every index `0 <= i <= slot_end` is the string
`cd_` followed by the decimal rendering of `i`; the names are pairwise
distinct.  On the fresh-database path of `rocks_db_open` (listing fails, the
open with `default` succeeds) the list is exactly `cd_0, cd_1, ..., cd_16383`
and the count is 16384. -/
theorem batch_add_cf_names (lib : Lib) (g : ColumnFamilyExample.Globals) :
    (∀ (fuel : Nat) (slot_end : Int), 0 ≤ slot_end → slot_end < INT_MAX → slot_end + 2 ≤ fuel →
      ∃ b names, ColumnFamilyExample.rocksdb_batch_add_cf fuel lib g 0 slot_end = some b ∧
        b.events.filter Event.isCreate =
          [.call (.create_column_families g.opt names (slot_end + 1))
            (lib.create_column_families names (slot_end + 1)).err] ∧
        (names.length : Int) = slot_end + 1 ∧
        (∀ i : Nat, (i : Int) ≤ slot_end →
          names[i]? = some (some ("cd_" ++ String.mk (decimal i)))) ∧
        names.Nodup) ∧
    (∀ (fuel : Nat) (path : String), 16385 ≤ fuel →
      (lib.list_column_families path).err ≠ none →
      (lib.open_column_families path 1 ["default"] [g.opt]).err = none →
      ∃ r names, ColumnFamilyExample.rocks_db_open fuel lib g path = some r ∧
        r.events.filter Event.isCreate =
          [.call (.create_column_families g.opt names 16384)
            (lib.create_column_families names 16384).err] ∧
        names = (List.range 16384).map (fun (i : Nat) => some ("cd_" ++ String.mk (decimal i))) ∧
        names[0]? = some (some "cd_0") ∧ names[16383]? = some (some "cd_16383")) := by
  constructor
  · intro fuel slot_end h0 h2 hf
    obtain ⟨b, names, hb, hnames, -, -, hbev, -, -, -, -⟩ :=
      cf_batch_spec fuel lib g 0 slot_end (le_refl _) h0 h2 hf
    have hz : slot_end - 0 + 1 = slot_end + 1 := by omega
    rw [hz] at hnames hbev
    have hn : names = slotNames "cd_" (slot_end + 1).toNat := by
      rw [hnames]; exact view_from_zero _ _
    refine ⟨b, names, hb, hbev, ?_, ?_, ?_⟩
    · rw [hn, slotNames_length]; omega
    · intro i hi
      rw [hn]
      exact slotNames_getElem? _ _ _ (by omega)
    · rw [hn]; exact slotNames_nodup _ _
  · intro fuel path hf hl ho
    obtain ⟨r, hr, -, -, -, hfresh⟩ := cf_rocks_db_open_cases fuel lib g path hf
    refine ⟨r, slotNames "cd_" 16384, hr, (hfresh hl ho).2, rfl, ?_, ?_⟩
    · rw [slotNames_getElem? _ _ _ (by omega)]; rfl
    · rw [slotNames_getElem? _ _ _ (by omega)]; rfl

/-- C8, witness: `slot_end = 2` with fuel 4: the name list is `cd_0, cd_1, cd_2`. -/
theorem batch_add_cf_names_witness :
    ∃ b, ColumnFamilyExample.rocksdb_batch_add_cf 4 freshRun ColumnFamilyExample.Globals.start 0 2
        = some b ∧
      b.events.filter Event.isCreate =
        [.call (.create_column_families none [some "cd_0", some "cd_1", some "cd_2"] 3) none] := by
  obtain ⟨b, names, hb, hev, hlen, hget, -⟩ :=
    (batch_add_cf_names freshRun ColumnFamilyExample.Globals.start).1 4 2 (by decide) (by decide)
      (by decide)
  refine ⟨b, hb, ?_⟩
  have h0 := hget 0 (by decide)
  have h1 := hget 1 (by decide)
  have h2 := hget 2 (by decide)
  have hn : names = [some "cd_0", some "cd_1", some "cd_2"] := by
    match names, hlen, h0, h1, h2 with
    | [a, b, c], _, h0, h1, h2 =>
      simp only [List.getElem?_cons_zero, List.getElem?_cons_succ, Option.some.injEq] at h0 h1 h2
      rw [h0, h1, h2]
      rfl
  rw [hev, hn]
  rfl

/-- C8, counterexample: with `slot_end = INT_MAX` the loop condition
`i <= slot_end` holds for every `int`, so the name loop never ends and no
creation call is made, whatever the fuel; and the count `slot_end + 1` does
not fit an `int` (the computed count is `-2147483648`). -/
theorem batch_add_cf_names_int_max :
    (¬ ∃ (fuel : Nat) (lib : Lib) (g : ColumnFamilyExample.Globals),
      (ColumnFamilyExample.rocksdb_batch_add_cf fuel lib g 0 2147483647).isSome = true) ∧
    ColumnFamilyExample.op_cf_count 0 2147483647 ≠ 2147483647 + 1 := by
  constructor
  · rintro ⟨fuel, lib, g, h⟩
    have hnone := forLoop_never (fun i => decide (i ≤ (2147483647 : Int)))
      (fun i (a : NameArray) => a.store i (sprintf_sd ColumnFamilyExample.CF_PREFIX i))
      (by intro i hi; simpa [INT_MAX] using hi) fuel 0 NameArray.fresh
      (by unfold INT_MAX; omega)
    simp only [ColumnFamilyExample.rocksdb_batch_add_cf, hnone] at h
    cases h
  · decide


theorem keyLt_asymm : ∀ a b : Bytes, keyLt a b = true → keyLt b a = false := by
  intro a
  induction a with
  | nil => intro b _; cases b <;> rfl
  | cons x xs ih =>
    intro b h
    cases b with
    | nil => simp [keyLt] at h
    | cons y ys =>
      simp only [keyLt] at h ⊢
      by_cases h1 : x < y
      · have h2 : ¬ y < x := by omega
        simp [h2, h1]
      · by_cases h2 : y < x
        · simp [h1, h2] at h
        · simp only [h1, h2, if_false] at h ⊢
          exact ih ys h

theorem keyLt_trans : ∀ a b c : Bytes, keyLt a b = true → keyLt b c = true → keyLt a c = true := by
  intro a
  induction a with
  | nil =>
    intro b c hab hbc
    cases b with
    | nil => simp [keyLt] at hab
    | cons y ys =>
      cases c with
      | nil => simp [keyLt] at hbc
      | cons z zs => rfl
  | cons x xs ih =>
    intro b c hab hbc
    cases b with
    | nil => simp [keyLt] at hab
    | cons y ys =>
      cases c with
      | nil => simp [keyLt] at hbc
      | cons z zs =>
        simp only [keyLt] at hab hbc ⊢
        by_cases hxy : x < y
        · by_cases hyz : y < z
          · have : x < z := by omega
            simp [this]
          · by_cases hzy : z < y
            · simp [hyz, hzy] at hbc
            · have : x < z := by omega
              simp [this]
        · by_cases hyx : y < x
          · simp [hxy, hyx] at hab
          · simp only [hxy, hyx, if_false] at hab
            have hxy' : x = y := by omega
            subst hxy'
            by_cases hxz : x < z
            · simp [hxz]
            · by_cases hzx : z < x
              · simp [hxz, hzx] at hbc
              · simp only [hxz, hzx, if_false] at hbc ⊢
                exact ih ys zs hab hbc

theorem keyLt_connex : ∀ a b : Bytes, keyLt a b = false → keyLt b a = false → a = b := by
  intro a
  induction a with
  | nil =>
    intro b hab _
    cases b with
    | nil => rfl
    | cons y ys => simp [keyLt] at hab
  | cons x xs ih =>
    intro b hab hba
    cases b with
    | nil => simp [keyLt] at hba
    | cons y ys =>
      simp only [keyLt] at hab hba
      by_cases hxy : x < y
      · simp [hxy] at hab
      · by_cases hyx : y < x
        · simp [hyx] at hba
        · simp only [hxy, hyx, if_false] at hab hba
          have : x = y := by omega
          rw [this, ih ys hab hba]

/-- A key below `t` followed (in key order) by `k`: if `k` is not below `t`,
neither is anything above `k`. -/
theorem keyLt_of_lt_of_not (a b t : Bytes) (hab : keyLt a b = true) (ha : keyLt a t = false) :
    keyLt b t = false := by
  cases h : keyLt b t with
  | false => rfl
  | true => rw [keyLt_trans a b t hab h] at ha; cases ha


theorem mem_cfPut (e : Bytes × Bytes) (k v : Bytes) :
    ∀ cf : List (Bytes × Bytes), e ∈ cfPut cf k v → e = (k, v) ∨ e ∈ cf := by
  intro cf
  induction cf with
  | nil => intro h; simp [cfPut] at h; exact Or.inl h
  | cons x rest ih =>
    intro h
    obtain ⟨k', v'⟩ := x
    simp only [cfPut] at h
    split at h
    · rcases List.mem_cons.1 h with h | h
      · exact Or.inl h
      · exact Or.inr h
    · split at h
      · rcases List.mem_cons.1 h with h | h
        · exact Or.inr (h ▸ List.mem_cons_self _ _)
        · rcases ih h with h | h
          · exact Or.inl h
          · exact Or.inr (List.mem_cons_of_mem _ h)
      · rcases List.mem_cons.1 h with h | h
        · exact Or.inl h
        · exact Or.inr (List.mem_cons_of_mem _ h)

theorem cfKeys_cfPut (k v : Bytes) : ∀ (cf : List (Bytes × Bytes)) (k0 : Bytes),
    k0 ∈ cfKeys (cfPut cf k v) ↔ k0 = k ∨ k0 ∈ cfKeys cf := by
  intro cf
  induction cf with
  | nil => intro k0; simp [cfPut, cfKeys]
  | cons x rest ih =>
    intro k0
    obtain ⟨k', v'⟩ := x
    simp only [cfPut]
    split
    · simp [cfKeys]
    · rename_i h1
      split
      · have := ih k0
        simp only [cfKeys, List.map_cons, List.mem_cons] at this ⊢
        rw [this]
        tauto
      · rename_i h2
        have hk : k = k' := keyLt_connex k k' (by simpa using h1) (by simpa using h2)
        subst hk
        simp [cfKeys]

theorem cfPut_ascending (k v : Bytes) : ∀ cf : List (Bytes × Bytes),
    ascending cf → ascending (cfPut cf k v) := by
  intro cf
  induction cf with
  | nil => intro _; simp [cfPut, ascending]
  | cons x rest ih =>
    intro h
    obtain ⟨k', v'⟩ := x
    unfold ascending at h ih ⊢
    rw [List.pairwise_cons] at h
    simp only [cfPut]
    split
    · rename_i h1
      rw [List.pairwise_cons]
      refine ⟨?_, List.pairwise_cons.2 h⟩
      intro e he
      rcases List.mem_cons.1 he with he | he
      · rw [he]; exact h1
      · exact keyLt_trans _ _ _ h1 (h.1 e he)
    · rename_i h1
      split
      · rename_i h2
        rw [List.pairwise_cons]
        refine ⟨?_, ih h.2⟩
        intro e he
        rcases mem_cfPut e k v rest he with he | he
        · rw [he]; exact h2
        · exact h.1 e he
      · rename_i h2
        have hk : k = k' := keyLt_connex k k' (by simpa using h1) (by simpa using h2)
        subst hk
        rw [List.pairwise_cons]
        exact ⟨h.1, h.2⟩

theorem foldl_cfPut_ascending : ∀ (ws cf : List (Bytes × Bytes)), ascending cf →
    ascending (ws.foldl (fun cf w => cfPut cf w.1 w.2) cf) := by
  intro ws
  induction ws with
  | nil => intro cf h; exact h
  | cons w ws ih => intro cf h; exact ih _ (cfPut_ascending _ _ _ h)

theorem cfBuild_ascending (ws : List (Bytes × Bytes)) : ascending (cfBuild ws) :=
  foldl_cfPut_ascending ws [] List.Pairwise.nil

theorem foldl_cfPut_keys : ∀ (ws cf : List (Bytes × Bytes)) (k0 : Bytes),
    k0 ∈ cfKeys (ws.foldl (fun cf w => cfPut cf w.1 w.2) cf) ↔
      k0 ∈ cfKeys cf ∨ k0 ∈ ws.map Prod.fst := by
  intro ws
  induction ws with
  | nil => intro cf k0; simp
  | cons w ws ih =>
    intro cf k0
    simp only [List.foldl_cons, ih, cfKeys_cfPut, List.map_cons, List.mem_cons]
    tauto

/-- The keys of a column family are exactly the keys written to it. -/
theorem cfKeys_cfBuild (ws : List (Bytes × Bytes)) (k0 : Bytes) :
    k0 ∈ cfKeys (cfBuild ws) ↔ k0 ∈ ws.map Prod.fst := by
  unfold cfBuild
  rw [foldl_cfPut_keys]
  simp [cfKeys]


theorem visitedKeys_loopEvents : ∀ l : List (Bytes × Bytes),
    visitedKeys (UpperBoundExample.loopEvents l) = l.map Prod.fst := by
  intro l
  induction l with
  | nil => rfl
  | cons e rest ih =>
    show e.1 :: visitedKeys (UpperBoundExample.loopEvents rest) = _
    rw [ih]; rfl

/-- The loop of `main` ends once the fuel exceeds the number of entries left,
and visits the entries left up to the first whose key is not below the upper
bound. -/
theorem scan_spec (entries : List (Bytes × Bytes)) (upper : Option Bytes) :
    ∀ (rest : List (Bytes × Bytes)) (pos fuel : Nat), entries.drop pos = rest →
      rest.length < fuel →
      UpperBoundExample.scan fuel ⟨entries, upper, pos⟩ =
        some (UpperBoundExample.loopEvents (rest.takeWhile (fun e => below upper e.1))) := by
  intro rest
  induction rest with
  | nil =>
    intro pos fuel hdrop hf
    obtain ⟨f, rfl⟩ : ∃ f, fuel = f + 1 := ⟨fuel - 1, by omega⟩
    have hnone : entries[pos]? = none := by
      rw [← List.head?_drop, hdrop]; rfl
    simp [UpperBoundExample.scan, Iter.valid, hnone, UpperBoundExample.loopEvents]
  | cons e rest ih =>
    intro pos fuel hdrop hf
    obtain ⟨f, rfl⟩ : ∃ f, fuel = f + 1 := ⟨fuel - 1, by simp at hf; omega⟩
    have hsome : entries[pos]? = some e := by
      rw [← List.head?_drop, hdrop]; rfl
    have hnext : entries.drop (pos + 1) = rest := by
      rw [← List.drop_drop, hdrop]; rfl
    by_cases hb : below upper e.1 = true
    · have hevs := ih (pos + 1) f hnext (by simp at hf; omega)
      have hv : Iter.valid ⟨entries, upper, pos⟩ = true := by
        simp [Iter.valid, hsome, hb]
      rw [UpperBoundExample.scan, if_pos hv]
      simp only [Iter.next]
      rw [hevs]
      simp [List.takeWhile_cons, hb, UpperBoundExample.loopEvents, Iter.key, Iter.value, hsome]
    · have hv : ¬ Iter.valid ⟨entries, upper, pos⟩ = true := by
        simp [Iter.valid, hsome, hb]
      rw [UpperBoundExample.scan, if_neg hv]
      simp [List.takeWhile_cons, hb, UpperBoundExample.loopEvents]

theorem drop_findIdx {α : Type} (p : α → Bool) : ∀ l : List α,
    l.drop (l.findIdx p) = l.dropWhile (fun x => !p x) := by
  intro l
  induction l with
  | nil => rfl
  | cons x xs ih =>
    rw [List.findIdx_cons]
    cases hp : p x with
    | true => simp [List.dropWhile, hp]
    | false => simp [List.dropWhile, hp, ih]

theorem dropWhile_eq_filter_of_ascending (t : Bytes) : ∀ cf : List (Bytes × Bytes),
    ascending cf →
    cf.dropWhile (fun e => keyLt e.1 t) = cf.filter (fun e => !keyLt e.1 t) := by
  intro cf
  induction cf with
  | nil => intro _; rfl
  | cons x xs ih =>
    intro h
    unfold ascending at h ih
    rw [List.pairwise_cons] at h
    cases hx : keyLt x.1 t with
    | true =>
      simp only [List.dropWhile_cons, List.filter_cons, hx, Bool.not_true, Bool.false_eq_true,
        if_true, if_false]
      exact ih h.2
    | false =>
      simp only [List.dropWhile_cons, List.filter_cons, hx, Bool.not_false, Bool.false_eq_true,
        if_true, if_false]
      congr 1
      symm
      rw [List.filter_eq_self]
      intro e he
      simp [keyLt_of_lt_of_not x.1 e.1 t (h.1 e he) hx]

theorem takeWhile_eq_filter_of_ascending (u : Bytes) : ∀ cf : List (Bytes × Bytes),
    ascending cf →
    cf.takeWhile (fun e => keyLt e.1 u) = cf.filter (fun e => keyLt e.1 u) := by
  intro cf
  induction cf with
  | nil => intro _; rfl
  | cons x xs ih =>
    intro h
    unfold ascending at h ih
    rw [List.pairwise_cons] at h
    cases hx : keyLt x.1 u with
    | true =>
      simp only [List.takeWhile_cons, List.filter_cons, hx, if_true]
      rw [ih h.2]
    | false =>
      simp only [List.takeWhile_cons, List.filter_cons, hx, Bool.false_eq_true, if_false]
      symm
      rw [List.filter_eq_nil_iff]
      intro e he
      simp [keyLt_of_lt_of_not x.1 e.1 u (h.1 e he) hx]

theorem ascending_filter (p : Bytes × Bytes → Bool) (cf : List (Bytes × Bytes))
    (h : ascending cf) : ascending (cf.filter p) :=
  List.Pairwise.filter p h

/-- Seeking to `t` and then running the loop of `main` under the upper bound
`u` over an ascending content: the loop ends and visits exactly the entries
with `t <= key < u`, in the content's order. -/
theorem scan_seek_spec (cf : List (Bytes × Bytes)) (t u : Bytes) (fuel : Nat)
    (hasc : ascending cf) (hf : cf.length < fuel) :
    UpperBoundExample.scan fuel ((Iter.create cf (some u)).seek t) =
      some (UpperBoundExample.loopEvents (UpperBoundExample.inRange t u cf)) := by
  have hdrop : cf.drop (cf.findIdx (fun e => !keyLt e.1 t)) =
      cf.filter (fun e => !keyLt e.1 t) := by
    rw [drop_findIdx, ← dropWhile_eq_filter_of_ascending t cf hasc]
    congr 1
    funext e
    simp
  have hlen : (cf.filter (fun e => !keyLt e.1 t)).length < fuel :=
    lt_of_le_of_lt (List.length_filter_le _ _) hf
  have h := scan_spec cf (some u) _ _ fuel hdrop hlen
  have hrange : (cf.filter (fun e => !keyLt e.1 t)).takeWhile (fun e => below (some u) e.1) =
      UpperBoundExample.inRange t u cf :=
    takeWhile_eq_filter_of_ascending u _ (ascending_filter _ _ hasc)
  rw [hrange] at h
  exact h

/-- C3 (amended): when the column family holds exactly the four keys `main`
writes, the loop after `seek("12724#")` under the upper bound `"12726$"` ends
and reads exactly `12724#t1`, `12724#t2` and `12726#t1`, in this order: every
key read lies in the range from the seek target up to the bound, the first
two start with the seek target `12724#`, and `12727#t1` is not read. -/
theorem scan_four_keys (fuel : Nat) (hf : 4 < fuel) :
    ∃ evs, UpperBoundExample.scan fuel
        ((Iter.create fourKeys (some (bytesOf "12726$" 6))).seek (bytesOf "12724#" 6)) = some evs ∧
      visitedKeys evs = [bytesOf "12724#t1" 8, bytesOf "12724#t2" 8, bytesOf "12726#t1" 8] ∧
      (∀ k ∈ visitedKeys evs, keyLt k (bytesOf "12724#" 6) = false ∧
        keyLt k (bytesOf "12726$" 6) = true) ∧
      (bytesOf "12724#" 6).isPrefixOf (bytesOf "12724#t1" 8) = true ∧
      (bytesOf "12724#" 6).isPrefixOf (bytesOf "12724#t2" 8) = true ∧
      bytesOf "12727#t1" 8 ∉ visitedKeys evs := by
  have hlen : fourKeys.length < fuel := by
    have : fourKeys.length = 4 := by decide
    omega
  have hvis : (UpperBoundExample.inRange (bytesOf "12724#" 6) (bytesOf "12726$" 6)
      fourKeys).map Prod.fst
      = [bytesOf "12724#t1" 8, bytesOf "12724#t2" 8, bytesOf "12726#t1" 8] := by decide
  refine ⟨_, scan_seek_spec fourKeys _ _ fuel (cfBuild_ascending _) hlen, ?_, ?_, ?_, ?_, ?_⟩
  · rw [visitedKeys_loopEvents, hvis]
  · rw [visitedKeys_loopEvents, hvis]
    decide
  · decide
  · decide
  · rw [visitedKeys_loopEvents, hvis]
    decide

/-- C3, witness: fuel 5. -/
theorem scan_four_keys_witness :
    ∃ evs, UpperBoundExample.scan 5
        ((Iter.create fourKeys (some (bytesOf "12726$" 6))).seek (bytesOf "12724#" 6)) = some evs ∧
      visitedKeys evs = [bytesOf "12724#t1" 8, bytesOf "12724#t2" 8, bytesOf "12726#t1" 8] := by
  obtain ⟨evs, h, hv, -⟩ := scan_four_keys 5 (by decide)
  exact ⟨evs, h, hv⟩

/-- C3, counterexample: with exactly the four keys of `main` in the column
family, the loop reads `12726#t1` (it is below the bound `12726$`, since the
byte `#` is smaller than the byte `$`), and that key does not start with the
seek target `12724#`. -/
theorem scan_four_keys_not_prefix_bounded :
    ∃ evs, UpperBoundExample.scan 5
        ((Iter.create fourKeys (some (bytesOf "12726$" 6))).seek (bytesOf "12724#" 6)) = some evs ∧
      bytesOf "12726#t1" 8 ∈ visitedKeys evs ∧
      keyLt (bytesOf "12726#t1" 8) (bytesOf "12726$" 6) = true ∧
      (bytesOf "12724#" 6).isPrefixOf (bytesOf "12726#t1" 8) = false := by
  refine ⟨_, scan_seek_spec fourKeys _ _ 5 (cfBuild_ascending _) (by decide), ?_, ?_, ?_⟩
  · rw [visitedKeys_loopEvents]
    decide
  · decide
  · decide


theorem cfPut_length_le (k v : Bytes) : ∀ cf : List (Bytes × Bytes),
    (cfPut cf k v).length ≤ cf.length + 1 := by
  intro cf
  induction cf with
  | nil => simp [cfPut]
  | cons x rest ih =>
    obtain ⟨k', v'⟩ := x
    simp only [cfPut]
    split
    · simp
    · split
      · simp only [List.length_cons]; omega
      · simp

theorem contentAt_ascending (lib : Lib) (h : Option Handle) :
    ascending (UpperBoundExample.contentAt lib h) := by
  cases h with
  | none => exact List.Pairwise.nil
  | some hd => exact cfBuild_ascending _

theorem put_cf_ascending (lib : Lib) (n : Nat) (h : Option Handle) (cf : List (Bytes × Bytes))
    (key : String) (kl : Nat) (val : String) (vl : Nat) (hasc : ascending cf) :
    ascending (UpperBoundExample.put_cf lib n h cf key kl val vl).1 := by
  unfold UpperBoundExample.put_cf
  split
  · exact cfPut_ascending _ _ _ hasc
  · exact hasc

theorem put_cf_length (lib : Lib) (n : Nat) (h : Option Handle) (cf : List (Bytes × Bytes))
    (key : String) (kl : Nat) (val : String) (vl : Nat) :
    (UpperBoundExample.put_cf lib n h cf key kl val vl).1.length ≤ cf.length + 1 := by
  unfold UpperBoundExample.put_cf
  split
  · exact cfPut_length_le _ _ _
  · simp

theorem fourPuts_ascending (lib : Lib) (h : Option Handle) (cf : List (Bytes × Bytes))
    (hasc : ascending cf) : ascending (UpperBoundExample.fourPuts lib h cf).1 := by
  unfold UpperBoundExample.fourPuts
  exact put_cf_ascending _ _ _ _ _ _ _ _ (put_cf_ascending _ _ _ _ _ _ _ _
    (put_cf_ascending _ _ _ _ _ _ _ _ (put_cf_ascending _ _ _ _ _ _ _ _ hasc)))

theorem fourPuts_length (lib : Lib) (h : Option Handle) (cf : List (Bytes × Bytes)) :
    (UpperBoundExample.fourPuts lib h cf).1.length ≤ cf.length + 4 := by
  unfold UpperBoundExample.fourPuts
  have h1 := put_cf_length lib 0 h cf "12724#t1" 8 "val_12724" 9
  have h2 := put_cf_length lib 1 h (UpperBoundExample.put_cf lib 0 h cf "12724#t1" 8
    "val_12724" 9).1 "12724#t2" 8 "val_12725" 9
  have h3 := put_cf_length lib 2 h (UpperBoundExample.put_cf lib 1 h
    (UpperBoundExample.put_cf lib 0 h cf "12724#t1" 8 "val_12724" 9).1
    "12724#t2" 8 "val_12725" 9).1 "12726#t1" 8 "val_12726" 9
  have h4 := put_cf_length lib 3 h (UpperBoundExample.put_cf lib 2 h
    (UpperBoundExample.put_cf lib 1 h
    (UpperBoundExample.put_cf lib 0 h cf "12724#t1" 8 "val_12724" 9).1
    "12724#t2" 8 "val_12725" 9).1 "12726#t1" 8 "val_12726" 9).1 "12727#t1" 8 "val_12727" 9
  simp only at h1 h2 h3 h4 ⊢
  omega

theorem fourPuts_events (lib : Lib) (h : Option Handle) (cf : List (Bytes × Bytes)) :
    (UpperBoundExample.fourPuts lib h cf).2 =
      [.call (.put_cf h "12724#t1" 8 "val_12724" 9) (lib.put_err 0),
       .call (.put_cf h "12724#t2" 8 "val_12725" 9) (lib.put_err 1),
       .call (.put_cf h "12726#t1" 8 "val_12726" 9) (lib.put_err 2),
       .call (.put_cf h "12727#t1" 8 "val_12727" 9) (lib.put_err 3)] := rfl

/-- The statements of `main` from the first put to the iterator's destruction
run to their end once the fuel exceeds the size of the column family, and
perform the same calls whatever the cell `handles[20]` holds. -/
theorem dataPath_spec (fuel : Nat) (lib : Lib) (h : Option Handle)
    (hf : (UpperBoundExample.contentAt lib h).length + 4 < fuel) :
    UpperBoundExample.dataPath fuel lib h = some
      ((UpperBoundExample.fourPuts lib h (UpperBoundExample.contentAt lib h)).2 ++
        [.call .create_snapshot none,
         .call .readoptions_set_snapshot none,
         .call (.readoptions_set_iterate_upper_bound "12726$" 6) none,
         .call (.create_iterator_cf h) none,
         .call (.iter_seek "12724#" 6) none,
         .call .iter_get_error lib.iter_err] ++
        UpperBoundExample.loopEvents (UpperBoundExample.inRange (bytesOf "12724#" 6)
          (bytesOf "12726$" 6)
          (UpperBoundExample.fourPuts lib h (UpperBoundExample.contentAt lib h)).1) ++
        [.call .iter_destroy none],
       (UpperBoundExample.fourPuts lib h (UpperBoundExample.contentAt lib h)).1) := by
  have hlen := fourPuts_length lib h (UpperBoundExample.contentAt lib h)
  have hscan := scan_seek_spec _ (bytesOf "12724#" 6) (bytesOf "12726$" 6) fuel
    (fourPuts_ascending lib h _ (contentAt_ascending lib _)) (lt_of_le_of_lt hlen hf)
  simp only [UpperBoundExample.dataPath, hscan]

theorem filter_isDataCall_open_cf_ub (lib : Lib) (g : UpperBoundExample.Globals) (p : String)
    (ns : List String) (sz : Int) :
    (UpperBoundExample.rocksdb_open_cf lib g p ns sz).events.filter Event.isDataCall = [] := by
  simp only [UpperBoundExample.rocksdb_open_cf]
  cases (lib.open_column_families p sz ns (List.replicate sz.toNat g.opt)).err <;> rfl

/-- The function `rocks_db_open` of the upper-bound example makes no call on
the data path. -/
theorem ub_open_no_data_call (fuel : Nat) (lib : Lib) (g : UpperBoundExample.Globals)
    (path : String) (hf : 33 ≤ fuel) (r : Ret UpperBoundExample.Globals)
    (hr : UpperBoundExample.rocks_db_open fuel lib g path = some r) :
    r.events.filter Event.isDataCall = [] := by
  cases hl : (lib.list_column_families path).err with
  | none =>
    rw [ub_open_listed fuel lib g path hl] at hr
    cases hr
    rw [List.filter_append, filter_isDataCall_open_cf_ub]
    rfl
  | some e =>
    by_cases ho : (lib.open_column_families path 1 ["default"] [g.opt]).err = none
    · rw [ub_open_fresh fuel lib g path e hf hl ho] at hr
      cases hr
      simp only [List.filter_append, filter_isDataCall_open_cf_ub]
      show ([] : List Event) ++ [] ++ _ = _
      by_cases hret : (lib.create_column_families (slotNames "cd_" 32) 32).ret ≠ 0
      · rw [if_pos hret]; rfl
      · rw [if_neg hret]; rfl
    · rw [ub_open_default_fails fuel lib g path e hl ho] at hr
      cases hr
      simp only [List.filter_append, filter_isDataCall_open_cf_ub]
      rfl

/-- The run of `main` of the upper-bound example, given the result of
`rocks_db_open`, when `handles[20]` is a cell: the data-path statements follow
unconditionally, and the status is tested only after the iterator is
destroyed. -/
theorem main_spec (fuel : Nat) (lib : Lib) (r : Ret UpperBoundExample.Globals)
    (h : Option Handle)
    (hr : UpperBoundExample.rocks_db_open fuel lib
      (UpperBoundExample.rocksdb_option_init lib UpperBoundExample.Globals.start).globals
      UpperBoundExample.DBPath = some r)
    (hread : UpperBoundExample.handleAt r.globals.handles 20 = some h)
    (hf : (UpperBoundExample.contentAt lib h).length + 4 < fuel) :
    UpperBoundExample.main fuel lib = some
      { outcome := if r.ret ≠ 0 then .returned r.ret else .idle
        events := (UpperBoundExample.rocksdb_option_init lib
            UpperBoundExample.Globals.start).events ++ r.events ++
          ((UpperBoundExample.fourPuts lib h (UpperBoundExample.contentAt lib h)).2 ++
            [.call .create_snapshot none,
             .call .readoptions_set_snapshot none,
             .call (.readoptions_set_iterate_upper_bound "12726$" 6) none,
             .call (.create_iterator_cf h) none,
             .call (.iter_seek "12724#" 6) none,
             .call .iter_get_error lib.iter_err] ++
            UpperBoundExample.loopEvents (UpperBoundExample.inRange (bytesOf "12724#" 6)
              (bytesOf "12726$" 6)
              (UpperBoundExample.fourPuts lib h (UpperBoundExample.contentAt lib h)).1) ++
            [.call .iter_destroy none]) ++
          (if r.ret ≠ 0 then [.fprintf "db open failed\n" []] else [])
        snapshot := (UpperBoundExample.fourPuts lib h
          (UpperBoundExample.contentAt lib h)).1 } := by
  simp only [UpperBoundExample.main, hr, hread, dataPath_spec fuel lib h hf]
  by_cases hret : r.ret ≠ 0
  · simp only [if_pos hret]
  · simp only [if_neg hret, List.append_nil]

/-- The run of `main` of the upper-bound example when `handles` is null or
has no cell 20 after `rocks_db_open`: it stops at the read of line 152. -/
theorem main_fault (fuel : Nat) (lib : Lib) (r : Ret UpperBoundExample.Globals)
    (hr : UpperBoundExample.rocks_db_open fuel lib
      (UpperBoundExample.rocksdb_option_init lib UpperBoundExample.Globals.start).globals
      UpperBoundExample.DBPath = some r)
    (hread : UpperBoundExample.handleAt r.globals.handles 20 = none) :
    UpperBoundExample.main fuel lib = some
      { outcome := .fault
        events := (UpperBoundExample.rocksdb_option_init lib
            UpperBoundExample.Globals.start).events ++ r.events
        snapshot := [] } := by
  simp only [UpperBoundExample.main, hr, hread]

/-- The data-path calls of a run of `main`, given the result of
`rocks_db_open` and the cell `handles[20]`. -/
theorem main_data_calls (fuel : Nat) (lib : Lib) (hf : 33 ≤ fuel)
    (r : Ret UpperBoundExample.Globals) (m : UpperBoundExample.MainRet)
    (hr : UpperBoundExample.rocks_db_open fuel lib
      (UpperBoundExample.rocksdb_option_init lib UpperBoundExample.Globals.start).globals
      UpperBoundExample.DBPath = some r)
    (h : Option Handle)
    (hread : UpperBoundExample.handleAt r.globals.handles 20 = some h)
    (hstore : (UpperBoundExample.contentAt lib h).length + 4 < fuel)
    (hm : UpperBoundExample.main fuel lib = some m) :
    m.events.filter Event.isDataCall =
      [.call (.put_cf h "12724#t1" 8 "val_12724" 9) (lib.put_err 0),
       .call (.put_cf h "12724#t2" 8 "val_12725" 9) (lib.put_err 1),
       .call (.put_cf h "12726#t1" 8 "val_12726" 9) (lib.put_err 2),
       .call (.put_cf h "12727#t1" 8 "val_12727" 9) (lib.put_err 3),
       .call .create_snapshot none,
       .call .readoptions_set_snapshot none,
       .call (.readoptions_set_iterate_upper_bound "12726$" 6) none,
       .call (.create_iterator_cf h) none,
       .call (.iter_seek "12724#" 6) none] ++
      (UpperBoundExample.loopEvents
        (UpperBoundExample.inRange (bytesOf "12724#" 6) (bytesOf "12726$" 6)
          m.snapshot)).filter Event.isDataCall ++
      [.call .iter_destroy none] := by
  have hm2 := main_spec fuel lib r h hr hread hstore
  rw [hm2] at hm
  cases hm
  simp only [List.filter_append, ub_open_no_data_call fuel lib _ _ hf r hr, fourPuts_events]
  have htail : (if r.ret ≠ 0 then [Event.fprintf "db open failed\n" []] else []).filter
      Event.isDataCall = [] := by
    split <;> rfl
  rw [htail]
  simp only [List.append_nil, List.append_assoc]
  rfl

/-- C7 (amended): in c_upper_bound_example.c, (1) `rocksdb_batch_add_cf`
reports the creation call's outcome and then assigns the call's output array
to the global `handles` whatever the call returned; when the call returns
non-zero the report is the `create column families failed` diagnostic and the
function returns that value.  (2) On the path where listing fails, the open
with `default` succeeds and the creation call returns non-zero, if the array
the call stored has a cell 20 (holding `h`), `main` still issues the four
puts, the snapshot and read-option calls and the whole scan through
`handles[20]`, and only after destroying the iterator prints `db open failed`
and returns the non-zero status.  (3) For every behaviour of the library, once
`handles[20]` is a cell the data-path statements run on it with no dependence
on the status of `rocks_db_open`. -/
theorem creation_failure_unguarded (fuel : Nat) (lib : Lib) (hf : 33 ≤ fuel)
    (hstore : ∀ h, (UpperBoundExample.contentAt lib h).length + 4 < fuel) :
    (∀ (g : UpperBoundExample.Globals) (slot_from slot_end : Int),
      0 ≤ slot_from → slot_from ≤ slot_end → slot_end ≤ INT_MAX → slot_end + 1 ≤ fuel →
      ∃ b names report,
        UpperBoundExample.rocksdb_batch_add_cf fuel lib g slot_from slot_end = some b ∧
        b.events = [.call (.create_column_families g.opt names (slot_end - slot_from))
          (lib.create_column_families names (slot_end - slot_from)).err, report] ∧
        b.globals.handles = (lib.create_column_families names (slot_end - slot_from)).cfs ∧
        ((lib.create_column_families names (slot_end - slot_from)).ret ≠ 0 →
          b.ret = (lib.create_column_families names (slot_end - slot_from)).ret ∧
          report = .fprintf
            "file: %s, line: %d create column families failed, fatal error: %s\n"
            [.file, .line 100,
             .errstr (lib.create_column_families names (slot_end - slot_from)).err])) ∧
    (∀ (e : String) (h : Option Handle),
      (lib.list_column_families UpperBoundExample.DBPath).err = some e →
      (lib.open_column_families UpperBoundExample.DBPath 1 ["default"]
        [some lib.options_create]).err = none →
      (lib.create_column_families (slotNames "cd_" 32) 32).ret ≠ 0 →
      UpperBoundExample.handleAt
        (lib.create_column_families (slotNames "cd_" 32) 32).cfs 20 = some h →
      ∃ m, UpperBoundExample.main fuel lib = some m ∧
        m.outcome = .returned (lib.create_column_families (slotNames "cd_" 32) 32).ret ∧
        m.events =
          (UpperBoundExample.rocksdb_option_init lib UpperBoundExample.Globals.start).events ++
          [.call (.list_column_families (some lib.options_create) UpperBoundExample.DBPath)
             (some e),
           .fprintf "file: %s, line: %d db path: %s, get column family empty, error: %s\n"
             [.file, .line 126, .str UpperBoundExample.DBPath, .str e],
           .call (.open_column_families (some lib.options_create) UpperBoundExample.DBPath 1
             ["default"] [some lib.options_create]) none,
           .fprintf "file: %s, line: %d open column families success\n" [.file, .line 64],
           .call (.list_column_families_destroy ["default"] 1) none,
           .call (.create_column_families (some lib.options_create) (slotNames "cd_" 32) 32)
             (lib.create_column_families (slotNames "cd_" 32) 32).err,
           .fprintf "file: %s, line: %d create column families failed, fatal error: %s\n"
             [.file, .line 100,
              .errstr (lib.create_column_families (slotNames "cd_" 32) 32).err],
           .call (.put_cf h "12724#t1" 8 "val_12724" 9) (lib.put_err 0),
           .call (.put_cf h "12724#t2" 8 "val_12725" 9) (lib.put_err 1),
           .call (.put_cf h "12726#t1" 8 "val_12726" 9) (lib.put_err 2),
           .call (.put_cf h "12727#t1" 8 "val_12727" 9) (lib.put_err 3),
           .call .create_snapshot none,
           .call .readoptions_set_snapshot none,
           .call (.readoptions_set_iterate_upper_bound "12726$" 6) none,
           .call (.create_iterator_cf h) none,
           .call (.iter_seek "12724#" 6) none,
           .call .iter_get_error lib.iter_err] ++
          UpperBoundExample.loopEvents
            (UpperBoundExample.inRange (bytesOf "12724#" 6) (bytesOf "12726$" 6) m.snapshot) ++
          [.call .iter_destroy none, .fprintf "db open failed\n" []]) ∧
    (∃ m r, UpperBoundExample.main fuel lib = some m ∧
      UpperBoundExample.rocks_db_open fuel lib
        (UpperBoundExample.rocksdb_option_init lib UpperBoundExample.Globals.start).globals
        UpperBoundExample.DBPath = some r ∧
      ∀ h, UpperBoundExample.handleAt r.globals.handles 20 = some h →
        ∃ d, UpperBoundExample.dataPath fuel lib h = some d ∧
          (m.outcome = if r.ret ≠ 0 then .returned r.ret else .idle) ∧
          m.events =
            (UpperBoundExample.rocksdb_option_init lib UpperBoundExample.Globals.start).events ++
            r.events ++ d.1 ++ (if r.ret ≠ 0 then [.fprintf "db open failed\n" []] else [])) := by
  refine ⟨?_, ?_, ?_⟩
  · intro g slot_from slot_end h0 h1 h2 hfuel
    obtain ⟨b, names, hb, -, hret, hg, hev, -, -⟩ :=
      ub_batch_spec fuel lib g slot_from slot_end h0 h1 h2 hfuel
    refine ⟨b, names, _, hb, hev, ?_, ?_⟩
    · rw [hg]
    · intro hne
      exact ⟨hret, if_pos hne⟩
  · intro e h hl ho hc hcell
    have hr := ub_open_fresh fuel lib
      (UpperBoundExample.rocksdb_option_init lib UpperBoundExample.Globals.start).globals
      UpperBoundExample.DBPath e hf hl ho
    have hm := main_spec fuel lib _ h hr hcell (hstore _)
    have hopen : (UpperBoundExample.rocksdb_open_cf lib
        (UpperBoundExample.rocksdb_option_init lib UpperBoundExample.Globals.start).globals
        UpperBoundExample.DBPath ["default"] 1).events =
        [.call (.open_column_families (some lib.options_create) UpperBoundExample.DBPath 1
             ["default"] [some lib.options_create]) none,
         .fprintf "file: %s, line: %d open column families success\n" [.file, .line 64],
         .call (.list_column_families_destroy ["default"] 1) none] := by
      have hrep : List.replicate (1 : Int).toNat (some lib.options_create)
          = [some lib.options_create] := rfl
      simp only [UpperBoundExample.rocksdb_open_cf, UpperBoundExample.rocksdb_option_init,
        hrep, ho]
    refine ⟨_, hm, ?_, ?_⟩
    · exact if_pos hc
    · simp only [hopen, if_pos hc, fourPuts_events, List.append_assoc, List.cons_append,
        List.nil_append]
      rfl
  · obtain ⟨r, hr, -⟩ := ub_rocks_db_open_cases fuel lib
      (UpperBoundExample.rocksdb_option_init lib UpperBoundExample.Globals.start).globals
      UpperBoundExample.DBPath hf
    rcases Option.eq_none_or_eq_some (UpperBoundExample.handleAt r.globals.handles 20) with
      hread | ⟨h, hread⟩
    · refine ⟨_, r, main_fault fuel lib r hr hread, hr, ?_⟩
      intro h hh
      rw [hread] at hh
      cases hh
    · have hm := main_spec fuel lib r h hr hread (hstore _)
      refine ⟨_, r, hm, hr, ?_⟩
      intro h' hh
      rw [hread] at hh
      cases hh
      exact ⟨_, dataPath_spec fuel lib h (hstore _), rfl, rfl⟩

/-- C7, witness: the run in which the creation call fails but its output
array holds the 32 handles: `main` issues the puts through `handles[20]`
(handle 220) and returns -1. -/
theorem creation_failure_unguarded_witness :
    (createFailsLateRun.create_column_families (slotNames "cd_" 32) 32).ret ≠ 0 ∧
    UpperBoundExample.handleAt
      (createFailsLateRun.create_column_families (slotNames "cd_" 32) 32).cfs 20
      = some (some 220) ∧
    ∃ m, UpperBoundExample.main 33 createFailsLateRun = some m ∧
      m.outcome = .returned (-1) ∧
      Event.call (.put_cf (some 220) "12724#t1" 8 "val_12724" 9) none ∈ m.events := by
  have hcell : UpperBoundExample.handleAt
      (createFailsLateRun.create_column_families (slotNames "cd_" 32) 32).cfs 20
      = some (some 220) := by decide
  obtain ⟨m, hm, hout, hev⟩ :=
    (creation_failure_unguarded 33 createFailsLateRun (le_refl _)
      (by intro h; cases h <;> exact (by decide : (0 : Nat) + 4 < 33))).2.1
      "IO error: No such file or directory" (some 220) rfl rfl (by decide) hcell
  refine ⟨by decide, hcell, m, hm, hout, ?_⟩
  rw [hev]
  simp only [List.mem_append, List.mem_cons]
  exact Or.inl (Or.inl (Or.inr (Or.inr (Or.inr (Or.inr (Or.inr (Or.inr (Or.inr (Or.inr
    (Or.inl rfl))))))))))

/-- C7, counterexample: the creation call returns -1 and leaves its output
array null; `rocksdb_batch_add_cf` makes `handles` null, and `main` stops at
the read `handles[20]` of its first put: it issues no put and no scan, and it
never reaches the status test, so it does not return the non-zero status. -/
theorem creation_failure_null_handles :
    (createFailsRun.create_column_families (slotNames "cd_" 32) 32).ret ≠ 0 ∧
    (UpperBoundExample.rocks_db_open 33 createFailsRun
        (UpperBoundExample.rocksdb_option_init createFailsRun
          UpperBoundExample.Globals.start).globals UpperBoundExample.DBPath).map
      (fun r => (r.ret, r.globals.handles)) = some (-1, none) ∧
    (UpperBoundExample.main 33 createFailsRun).map
      (fun m => (m.outcome, m.events.filter Event.isDataCall)) = some (.fault, []) := by
  decide

theorem wrapInt_natCast_toNat_le (n : Nat) : (wrapInt (n : Int)).toNat ≤ n := by
  unfold wrapInt
  omega

theorem wrapInt_natCast_small (n : Nat) (h : n < 2147483648) : (wrapInt (n : Int)).toNat = n := by
  unfold wrapInt
  omega

/-- C10: in c_upper_bound_example.c, assuming the library returns one handle
per requested name in the order of the names (`handleOf name` for `name`):
(1) on the fresh-database path (listing fails, the open with `default`
succeeds, the creation of the 32 names returns 0) `rocks_db_open` leaves a
`handles` array of 32 cells, cell `i` holding the handle of `cd_i`;
`handles[20]` is the handle of `cd_20`, and it is the handle of every put and
of the iterator in `main`.  (2) On the reopen path (listing succeeds) the
`handles` array has `(int)size` cells, never more than the number of listed
names, and cell `i` holds the handle of the `i`-th listed name; so index 20
is inside the array (the read `handles[20]` is a read of a cell) only when at
least 21 column families were listed (and, for fewer than 2^31 names, exactly
then). -/
theorem handles_layout (fuel : Nat) (lib : Lib) (handleOf : String → Handle) (hf : 33 ≤ fuel)
    (hstore : ∀ h, (UpperBoundExample.contentAt lib h).length + 4 < fuel) :
    (∀ e : String, (lib.list_column_families UpperBoundExample.DBPath).err = some e →
      (lib.open_column_families UpperBoundExample.DBPath 1 ["default"]
        [some lib.options_create]).err = none →
      (lib.create_column_families (slotNames "cd_" 32) 32).ret = 0 →
      (lib.create_column_families (slotNames "cd_" 32) 32).cfs =
        some ((slotNames "cd_" 32).map (Option.map handleOf)) →
      ∃ m r cells, UpperBoundExample.main fuel lib = some m ∧
        UpperBoundExample.rocks_db_open fuel lib
          (UpperBoundExample.rocksdb_option_init lib UpperBoundExample.Globals.start).globals
          UpperBoundExample.DBPath = some r ∧
        r.globals.handles = some cells ∧
        cells.length = 32 ∧
        (∀ i : Nat, i < 32 →
          cells[i]? = some (some (handleOf ("cd_" ++ String.mk (decimal i))))) ∧
        UpperBoundExample.handleAt r.globals.handles 20 = some (some (handleOf "cd_20")) ∧
        m.outcome = .idle ∧
        m.events.filter Event.isDataCall =
          [.call (.put_cf (some (handleOf "cd_20")) "12724#t1" 8 "val_12724" 9) (lib.put_err 0),
           .call (.put_cf (some (handleOf "cd_20")) "12724#t2" 8 "val_12725" 9) (lib.put_err 1),
           .call (.put_cf (some (handleOf "cd_20")) "12726#t1" 8 "val_12726" 9) (lib.put_err 2),
           .call (.put_cf (some (handleOf "cd_20")) "12727#t1" 8 "val_12727" 9) (lib.put_err 3),
           .call .create_snapshot none,
           .call .readoptions_set_snapshot none,
           .call (.readoptions_set_iterate_upper_bound "12726$" 6) none,
           .call (.create_iterator_cf (some (handleOf "cd_20"))) none,
           .call (.iter_seek "12724#" 6) none] ++
          (UpperBoundExample.loopEvents
            (UpperBoundExample.inRange (bytesOf "12724#" 6) (bytesOf "12726$" 6)
              m.snapshot)).filter Event.isDataCall ++
          [.call .iter_destroy none]) ∧
    ((lib.list_column_families UpperBoundExample.DBPath).err = none →
      (lib.open_column_families UpperBoundExample.DBPath
        (wrapInt (lib.list_column_families UpperBoundExample.DBPath).names.length)
        (lib.list_column_families UpperBoundExample.DBPath).names
        (List.replicate
          (wrapInt (lib.list_column_families UpperBoundExample.DBPath).names.length).toNat
          (some lib.options_create))).handles =
        (lib.list_column_families UpperBoundExample.DBPath).names.map handleOf →
      ∃ r cells, UpperBoundExample.rocks_db_open fuel lib
          (UpperBoundExample.rocksdb_option_init lib UpperBoundExample.Globals.start).globals
          UpperBoundExample.DBPath = some r ∧
        r.globals.handles = some cells ∧
        cells.length =
          (wrapInt (lib.list_column_families UpperBoundExample.DBPath).names.length).toNat ∧
        cells.length ≤ (lib.list_column_families UpperBoundExample.DBPath).names.length ∧
        (∀ i : Nat, i < cells.length →
          ∃ name, (lib.list_column_families UpperBoundExample.DBPath).names[i]? = some name ∧
            cells[i]? = some (some (handleOf name))) ∧
        (20 < cells.length →
          21 ≤ (lib.list_column_families UpperBoundExample.DBPath).names.length) ∧
        ((UpperBoundExample.handleAt r.globals.handles 20).isSome = true →
          21 ≤ (lib.list_column_families UpperBoundExample.DBPath).names.length) ∧
        (∀ hd, UpperBoundExample.handleAt r.globals.handles 20 = some (some hd) →
          21 ≤ (lib.list_column_families UpperBoundExample.DBPath).names.length) ∧
        (UpperBoundExample.handleAt r.globals.handles 20 = none ↔ cells.length ≤ 20) ∧
        ((lib.list_column_families UpperBoundExample.DBPath).names.length < 2147483648 →
          (20 < cells.length ↔
            21 ≤ (lib.list_column_families UpperBoundExample.DBPath).names.length))) := by
  constructor
  · intro e hl ho hret hcfs
    have hr := ub_open_fresh fuel lib
      (UpperBoundExample.rocksdb_option_init lib UpperBoundExample.Globals.start).globals
      UpperBoundExample.DBPath e hf hl ho
    have hcell : ∀ i : Nat, i < 32 → ((slotNames "cd_" 32).map (Option.map handleOf))[i]? =
        some (some (handleOf ("cd_" ++ String.mk (decimal i)))) := by
      intro i hi
      rw [List.getElem?_map, slotNames_getElem? _ _ _ hi]
      rfl
    have h20 : UpperBoundExample.handleAt
        (some ((slotNames "cd_" 32).map (Option.map handleOf))) 20
        = some (some (handleOf "cd_20")) := by
      simp only [UpperBoundExample.handleAt, hcell 20 (by omega)]
      rfl
    have hread : UpperBoundExample.handleAt
        (lib.create_column_families (slotNames "cd_" 32) 32).cfs 20
        = some (some (handleOf "cd_20")) := by
      rw [hcfs, h20]
    have hm := main_spec fuel lib _ (some (handleOf "cd_20")) hr hread (hstore _)
    refine ⟨_, _, _, hm, hr, hcfs, ?_, hcell, hread, ?_, ?_⟩
    · rw [List.length_map, slotNames_length]
    · show (if (lib.create_column_families (slotNames "cd_" 32) 32).ret ≠ 0 then _ else _) = _
      rw [if_neg (by rw [hret]; decide)]
    · exact main_data_calls fuel lib hf _ _ hr (some (handleOf "cd_20")) hread (hstore _) hm
  · intro hl hh
    have hr := ub_open_listed fuel lib
      (UpperBoundExample.rocksdb_option_init lib UpperBoundExample.Globals.start).globals
      UpperBoundExample.DBPath hl
    have hle := wrapInt_natCast_toNat_le
      (lib.list_column_families UpperBoundExample.DBPath).names.length
    have hcells : ∀ i : Nat,
        i < (wrapInt (lib.list_column_families UpperBoundExample.DBPath).names.length).toNat →
        ∃ name, (lib.list_column_families UpperBoundExample.DBPath).names[i]? = some name ∧
          ((List.range
            (wrapInt (lib.list_column_families UpperBoundExample.DBPath).names.length).toNat).map
            (fun i => ((lib.list_column_families UpperBoundExample.DBPath).names.map
              handleOf)[i]?))[i]? = some (some (handleOf name)) := by
      intro i hi
      have hlt : i < (lib.list_column_families UpperBoundExample.DBPath).names.length := by omega
      refine ⟨(lib.list_column_families UpperBoundExample.DBPath).names[i], ?_, ?_⟩
      · exact List.getElem?_eq_getElem hlt
      · rw [List.getElem?_map, List.getElem?_range hi]
        simp [List.getElem?_eq_getElem hlt]
    have hhandles : (UpperBoundExample.rocksdb_open_cf lib
        (UpperBoundExample.rocksdb_option_init lib UpperBoundExample.Globals.start).globals
        UpperBoundExample.DBPath (lib.list_column_families UpperBoundExample.DBPath).names
        (wrapInt (lib.list_column_families UpperBoundExample.DBPath).names.length)).globals.handles
        = some ((List.range
            (wrapInt (lib.list_column_families UpperBoundExample.DBPath).names.length).toNat).map
            (fun i => ((lib.list_column_families UpperBoundExample.DBPath).names.map
              handleOf)[i]?)) := by
      simp only [UpperBoundExample.rocksdb_open_cf, UpperBoundExample.rocksdb_option_init, hh]
    have hat : ∀ k : Nat, UpperBoundExample.handleAt (UpperBoundExample.rocksdb_open_cf lib
        (UpperBoundExample.rocksdb_option_init lib UpperBoundExample.Globals.start).globals
        UpperBoundExample.DBPath (lib.list_column_families UpperBoundExample.DBPath).names
        (wrapInt (lib.list_column_families UpperBoundExample.DBPath).names.length)).globals.handles
        k = ((List.range
            (wrapInt (lib.list_column_families UpperBoundExample.DBPath).names.length).toNat).map
            (fun i => ((lib.list_column_families UpperBoundExample.DBPath).names.map
              handleOf)[i]?))[k]? := by
      intro k
      rw [hhandles]
      rfl
    have hinside : ∀ hd : Option Handle, ((List.range
            (wrapInt (lib.list_column_families UpperBoundExample.DBPath).names.length).toNat).map
            (fun i => ((lib.list_column_families UpperBoundExample.DBPath).names.map
              handleOf)[i]?))[20]? = some hd →
        20 < (wrapInt (lib.list_column_families UpperBoundExample.DBPath).names.length).toNat := by
      intro hd hget
      by_contra hlt
      rw [List.getElem?_eq_none (by simp only [List.length_map, List.length_range]; omega)]
        at hget
      cases hget
    refine ⟨_, (List.range
            (wrapInt (lib.list_column_families UpperBoundExample.DBPath).names.length).toNat).map
            (fun i => ((lib.list_column_families UpperBoundExample.DBPath).names.map
              handleOf)[i]?), hr, hhandles, ?_, ?_, ?_, ?_, ?_, ?_, ?_, ?_⟩
    · simp
    · simpa using hle
    · intro i hi
      simp only [List.length_map, List.length_range] at hi
      exact hcells i hi
    · intro h20
      simp only [List.length_map, List.length_range] at h20
      omega
    · intro hsome
      obtain ⟨hd, hhd⟩ := Option.isSome_iff_exists.1 hsome
      have h1 : UpperBoundExample.handleAt (UpperBoundExample.rocksdb_open_cf lib
        (UpperBoundExample.rocksdb_option_init lib UpperBoundExample.Globals.start).globals
        UpperBoundExample.DBPath (lib.list_column_families UpperBoundExample.DBPath).names
        (wrapInt (lib.list_column_families UpperBoundExample.DBPath).names.length)).globals.handles
        20 = some hd := hhd
      rw [hat] at h1
      have := hinside hd h1
      omega
    · intro hd hhd
      have h1 : UpperBoundExample.handleAt (UpperBoundExample.rocksdb_open_cf lib
        (UpperBoundExample.rocksdb_option_init lib UpperBoundExample.Globals.start).globals
        UpperBoundExample.DBPath (lib.list_column_families UpperBoundExample.DBPath).names
        (wrapInt (lib.list_column_families UpperBoundExample.DBPath).names.length)).globals.handles
        20 = some (some hd) := hhd
      rw [hat] at h1
      have := hinside (some hd) h1
      omega
    · show UpperBoundExample.handleAt (UpperBoundExample.rocksdb_open_cf lib
        (UpperBoundExample.rocksdb_option_init lib UpperBoundExample.Globals.start).globals
        UpperBoundExample.DBPath (lib.list_column_families UpperBoundExample.DBPath).names
        (wrapInt (lib.list_column_families UpperBoundExample.DBPath).names.length)).globals.handles
        20 = none ↔ _
      rw [hat, List.getElem?_eq_none_iff]
    · intro hsmall
      have := wrapInt_natCast_small _ hsmall
      simp only [List.length_map, List.length_range]
      omega

/-- C10, witness: on a fresh database `handles[20]` is the handle of `cd_20`
(220 in `freshRun`); reopening a database with three column families leaves
an array of three cells, so index 20 is outside it. -/
theorem handles_layout_witness :
    (∃ r, UpperBoundExample.rocks_db_open 33 freshRun
        (UpperBoundExample.rocksdb_option_init freshRun UpperBoundExample.Globals.start).globals
        UpperBoundExample.DBPath = some r ∧
      UpperBoundExample.handleAt r.globals.handles 20 = some (some 220)) ∧
    (∃ r cells, UpperBoundExample.rocks_db_open 33 reopenRun
        (UpperBoundExample.rocksdb_option_init reopenRun UpperBoundExample.Globals.start).globals
        UpperBoundExample.DBPath = some r ∧
      r.globals.handles = some cells ∧ cells.length = 3 ∧
      UpperBoundExample.handleAt r.globals.handles 20 = none) := by
  constructor
  · obtain ⟨m, r, cells, -, hr, -, -, -, h20, -⟩ :=
      (handles_layout 33 freshRun sampleHandleOf (le_refl _)
        (by intro h; cases h <;> exact (by decide : (0 : Nat) + 4 < 33))).1
        "IO error: No such file or directory" rfl rfl rfl (by decide)
    exact ⟨r, hr, h20⟩
  · obtain ⟨r, cells, hr, hcells, hlen, -, -, -, hsome, -, -, -⟩ :=
      (handles_layout 33 reopenRun
        (fun name => if name = "default" then 100 else if name = "cd_0" then 101 else 102)
        (le_refl _)
        (by intro h; cases h <;> exact (by decide : (0 : Nat) + 4 < 33))).2 rfl (by decide)
    refine ⟨r, cells, hr, hcells, hlen, ?_⟩
    cases hh : UpperBoundExample.handleAt r.globals.handles 20 with
    | none => rfl
    | some hd =>
      have := hsome (by rw [hh]; rfl)
      exact absurd this (by decide)

/-- C6, evaluation at the failing inputs: in `main` of c_upper_bound_example.c
the error a `rocksdb_put_cf` leaves is followed directly by the next
`rocksdb_put_cf`, and the error `rocksdb_iter_get_error` leaves is followed
directly by `rocksdb_iter_valid`; no diagnostic is written in between, while
the calls of `rocks_db_open` in the same runs have their errors reported. -/
theorem put_and_iterator_errors_unreported :
    (∃ m, UpperBoundExample.main 33 putFailsRun = some m ∧
      [Event.call (.put_cf (some 220) "12724#t1" 8 "val_12724" 9) (some "IO error: disk full"),
       Event.call (.put_cf (some 220) "12724#t2" 8 "val_12725" 9) none] <:+: m.events ∧
      errorsReported m.events = false) ∧
    (∃ m, UpperBoundExample.main 33 iterFailsRun = some m ∧
      [Event.call .iter_get_error (some "Corruption: block checksum mismatch"),
       Event.call (.iter_valid true) none] <:+: m.events ∧
      errorsReported m.events = false) ∧
    (UpperBoundExample.rocks_db_open 33 putFailsRun
        (UpperBoundExample.rocksdb_option_init putFailsRun
          UpperBoundExample.Globals.start).globals UpperBoundExample.DBPath).map
      (fun r => errorsReported r.events) = some true := by
  refine ⟨?_, ?_, by decide⟩
  · have h : (UpperBoundExample.main 33 putFailsRun).map (fun m =>
        decide ([Event.call (.put_cf (some 220) "12724#t1" 8 "val_12724" 9)
            (some "IO error: disk full"),
          Event.call (.put_cf (some 220) "12724#t2" 8 "val_12725" 9) none] <:+: m.events) &&
        !errorsReported m.events) = some true := by decide
    cases hm : UpperBoundExample.main 33 putFailsRun with
    | none => rw [hm] at h; cases h
    | some m =>
      rw [hm] at h
      simp only [Option.map_some', Option.some.injEq, Bool.and_eq_true, decide_eq_true_eq,
        Bool.not_eq_true'] at h
      exact ⟨m, rfl, h.1, h.2⟩
  · have h : (UpperBoundExample.main 33 iterFailsRun).map (fun m =>
        decide ([Event.call .iter_get_error (some "Corruption: block checksum mismatch"),
          Event.call (.iter_valid true) none] <:+: m.events) &&
        !errorsReported m.events) = some true := by decide
    cases hm : UpperBoundExample.main 33 iterFailsRun with
    | none => rw [hm] at h; cases h
    | some m =>
      rw [hm] at h
      simp only [Option.map_some', Option.some.injEq, Bool.and_eq_true, decide_eq_true_eq,
        Bool.not_eq_true'] at h
      exact ⟨m, rfl, h.1, h.2⟩

end RocksExamples
